import Mathlib

/-!
# ODC request adapters: gRPC service and CLI control service

A shallow embedding of `odc/grpc/GrpcService.cpp`, `cli-server/src/CliControlService.cpp`
and `core/src/CliServiceHelper.h`, with the properties of the adapter layer proved over it.

Conventions of the embedding

* `std::string` is `String`; `size_t`, `uint64_t` are `Nat`; `int` is `Int`. The adapters only
  copy and print these numbers, no arithmetic is done on them.
* A `std::stringstream` is the `String` written so far; `<<` appends and `endl` appends a newline.
* A protobuf message is a structure whose default value is the freshly constructed message;
  a setter is a structure update, `add_xxx()` appends to the repeated field.
* A `std::mutex` living in a node of `m_mutexMap` is identified by a number: two mutexes are the
  same object exactly when their numbers are equal.
* Handlers thread the service object through explicitly and record the observable events
  (partition lock taken, engine called, reply filled in, partition lock released) in `trace`.
-/

namespace odc

/-! ## Declarations the adapters rely on -/

/-- Partition identifier (`odc::core::partitionID_t`). -/
abbrev partitionID_t := String

/-- Parameters of the development: the device lifecycle states, the aggregated topology states
and the functions naming them (`fair::mq::State`, `fair::mq::GetStateName`,
`AggregatedTopologyState`, `GetAggregatedTopologyStateName` of `odc/Topology.h`) are declared
outside the given sources. The adapters use nothing of them but the two naming functions. -/
structure TopologyDecls where
  State : Type
  AggregatedTopologyState : Type
  GetStateName : State → String
  GetAggregatedTopologyStateName : AggregatedTopologyState → String

/-- Modelled from the spec: the status code of an outcome (`EStatusCode`, declared in
`ControlService.h`, outside the given sources). The spec names `ok` and `error`; `unknown` stands
for the value of a default-constructed outcome. The adapters only compare against `ok`. -/
inductive EStatusCode where
  | unknown
  | ok
  | error
  deriving DecidableEq, Repr

/-- Session status of a partition (`ESessionStatus`); the adapters only compare against
`running`. -/
inductive ESessionStatus where
  | unknown
  | running
  | stopped
  deriving DecidableEq, Repr

/-- A `std::error_code`, observed through `value()` and `message()`. -/
structure error_code where
  value : Int
  message : String
  deriving DecidableEq, Repr

/-- Error of an outcome (`SError`): the code and the free-form detail text. -/
structure SError where
  m_code : error_code
  m_details : String
  deriving DecidableEq, Repr

/-- Common request parameters (`SCommonParams`). -/
structure SCommonParams where
  m_partitionID : partitionID_t
  m_runNr : Nat
  m_timeout : Nat
  deriving DecidableEq, Repr

structure SInitializeParams where
  m_sessionID : String
  deriving DecidableEq, Repr

structure SSubmitParams where
  m_plugin : String
  m_resources : String
  deriving DecidableEq, Repr

structure SActivateParams where
  m_topologyFile : String
  m_topologyContent : String
  m_topologyScript : String
  deriving DecidableEq, Repr

structure SUpdateParams where
  m_topologyFile : String
  m_topologyContent : String
  m_topologyScript : String
  deriving DecidableEq, Repr

structure SDeviceParams where
  m_path : String
  m_detailed : Bool
  deriving DecidableEq, Repr

structure SSetPropertiesParams where
  m_properties : List (String × String)
  m_path : String
  deriving DecidableEq, Repr

structure SStatusParams where
  m_running : Bool
  deriving DecidableEq, Repr

/-- Status of one device as reported by the runtime (`state.m_status`). -/
structure DeviceStatus (T : TopologyDecls) where
  taskId : Nat
  state : T.State

/-- One element of the topology state: a device status and the device path. -/
structure SDeviceStatus (T : TopologyDecls) where
  m_status : DeviceStatus T
  m_path : String

/-- Optional detail of an outcome (`SReturnDetails`). -/
structure SReturnDetails (T : TopologyDecls) where
  m_topologyState : List (SDeviceStatus T)

/-- Part of an outcome shared by all engine calls (`SBaseReturnValue`). -/
structure SBaseReturnValue where
  m_statusCode : EStatusCode
  m_msg : String
  m_execTime : Nat
  m_error : SError
  deriving DecidableEq, Repr

/-- Outcome of a per-partition engine call (`SReturnValue`); `m_details` is a pointer that may be
null. -/
structure SReturnValue (T : TopologyDecls) extends SBaseReturnValue where
  m_partitionID : partitionID_t
  m_runNr : Nat
  m_sessionID : String
  m_aggregatedState : T.AggregatedTopologyState
  m_details : Option (SReturnDetails T)

/-- Status of one partition in the outcome of `execStatus`. -/
structure SPartitionStatus (T : TopologyDecls) where
  m_partitionID : partitionID_t
  m_sessionID : String
  m_sessionStatus : ESessionStatus
  m_aggregatedState : T.AggregatedTopologyState

/-- Outcome of `execStatus` (`SStatusReturnValue`). -/
structure SStatusReturnValue (T : TopologyDecls) extends SBaseReturnValue where
  m_partitions : List (SPartitionStatus T)

/-- Modelled from the spec: the stream output of an aggregated state (`operator<<` for
`AggregatedTopologyState`, declared in `odc/Topology.h`, outside the given sources). The spec
serialises the aggregated state as its string name. -/
def showAggregatedState (T : TopologyDecls) (s : T.AggregatedTopologyState) : String :=
  T.GetAggregatedTopologyStateName s

/-! ## The partition lock map (`m_mutexMap`) -/

/-- The map `std::map<partitionID_t, std::mutex>`: its nodes, each holding a key and the mutex
constructed in that node, and the number of mutexes constructed so far. -/
structure MutexMap where
  nodes : List (partitionID_t × Nat)
  constructed : Nat
  deriving DecidableEq, Repr

namespace MutexMap

/-- The map of a freshly constructed service. -/
def empty : MutexMap := ⟨[], 0⟩

/-- Lookup `m_mutexMap.find(k)`: the mutex stored under `k`, `none` for `end()`. -/
def find (m : MutexMap) (k : partitionID_t) : Option Nat :=
  m.nodes.lookup k

/-- Access `m_mutexMap[k]`: the mutex stored under `k`; when there is none, a node holding a newly
constructed mutex is inserted first. -/
def index (m : MutexMap) (k : partitionID_t) : Nat × MutexMap :=
  match m.find k with
  | some mtx => (mtx, m)
  | none => (m.constructed, ⟨(k, m.constructed) :: m.nodes, m.constructed + 1⟩)

/-- The partition IDs that have a lock. -/
def keys (m : MutexMap) : List partitionID_t :=
  m.nodes.map Prod.fst

/-- Well-formedness of the lock map: every mutex in it was constructed before, and no mutex is
stored under two keys. -/
def WF (m : MutexMap) : Prop :=
  (∀ k x, m.find k = some x → x < m.constructed) ∧
  (∀ k₁ k₂ x, m.find k₁ = some x → m.find k₂ = some x → k₁ = k₂)

end MutexMap

/-- The lock of a partition, `CGrpcService::getMutex`, on the lock map alone. -/
def getMutex (m : MutexMap) (_partitionID : partitionID_t) : Nat × MutexMap :=
  match m.find _partitionID with
  | none => m.index _partitionID
  | some mtx => (mtx, m)

/-- The lock map after a sequence of `getMutex` calls. -/
def getMutexMapAfter (m : MutexMap) (ids : List partitionID_t) : MutexMap :=
  ids.foldl (fun acc p => (getMutex acc p).2) m

/-- The locks returned by a sequence of `getMutex` calls, in call order. -/
def getMutexCalls (m : MutexMap) : List partitionID_t → List Nat
  | [] => []
  | p :: ps => (getMutex m p).1 :: getMutexCalls (getMutex m p).2 ps

/-! ## Protobuf messages of the gRPC interface -/

/-- Reply status (`odc::ReplyStatus`); `UNKNOWN` is the value of a fresh message. -/
inductive ReplyStatus where
  | UNKNOWN
  | SUCCESS
  | ERROR
  deriving DecidableEq, Repr

/-- Session status in a status reply (`odc::SessionStatus`). -/
inductive SessionStatus where
  | UNKNOWN
  | RUNNING
  | STOPPED
  deriving DecidableEq, Repr

/-- Message `odc::Error`. -/
structure Error where
  code : Int := 0
  msg : String := ""
  deriving DecidableEq, Repr

/-- Message `odc::GeneralReply`; `error` is a sub-message, absent in a fresh reply. -/
structure GeneralReply where
  msg : String := ""
  status : ReplyStatus := ReplyStatus.UNKNOWN
  error : Option Error := none
  exectime : Nat := 0
  partitionid : String := ""
  sessionid : String := ""
  state : String := ""
  runnr : Nat := 0
  deriving DecidableEq, Repr

/-- Message `odc::Device`. -/
structure Device where
  path : String := ""
  id : Nat := 0
  state : String := ""
  deriving DecidableEq, Repr

/-- Message `odc::StateReply`. -/
structure StateReply where
  reply : Option GeneralReply := none
  devices : List Device := []
  deriving DecidableEq, Repr

/-- Message `odc::PartitionStatus`. -/
structure PartitionStatus where
  partitionid : String := ""
  sessionid : String := ""
  status : SessionStatus := SessionStatus.UNKNOWN
  state : String := ""
  deriving DecidableEq, Repr

/-- Message `odc::StatusReply`. -/
structure StatusReply where
  msg : String := ""
  status : ReplyStatus := ReplyStatus.UNKNOWN
  error : Option Error := none
  exectime : Nat := 0
  partitions : List PartitionStatus := []
  deriving DecidableEq, Repr

structure InitializeRequest where
  partitionid : String
  runnr : Nat
  timeout : Nat
  sessionid : String
  deriving DecidableEq, Repr

structure SubmitRequest where
  partitionid : String
  runnr : Nat
  timeout : Nat
  plugin : String
  resources : String
  deriving DecidableEq, Repr

structure ActivateRequest where
  partitionid : String
  runnr : Nat
  timeout : Nat
  topology : String
  content : String
  script : String
  deriving DecidableEq, Repr

structure RunRequest where
  partitionid : String
  runnr : Nat
  timeout : Nat
  plugin : String
  resources : String
  topology : String
  content : String
  script : String
  deriving DecidableEq, Repr

structure UpdateRequest where
  partitionid : String
  runnr : Nat
  timeout : Nat
  topology : String
  content : String
  script : String
  deriving DecidableEq, Repr

structure StateRequest where
  partitionid : String
  runnr : Nat
  timeout : Nat
  path : String
  detailed : Bool
  deriving DecidableEq, Repr

/-- One key/value pair of a `SetPropertiesRequest`. -/
structure Property where
  key : String
  value : String
  deriving DecidableEq, Repr

structure SetPropertiesRequest where
  partitionid : String
  runnr : Nat
  timeout : Nat
  properties : List Property
  path : String
  deriving DecidableEq, Repr

structure ConfigureRequest where
  request : StateRequest
  deriving DecidableEq, Repr

structure StartRequest where
  request : StateRequest
  deriving DecidableEq, Repr

structure StopRequest where
  request : StateRequest
  deriving DecidableEq, Repr

structure ResetRequest where
  request : StateRequest
  deriving DecidableEq, Repr

structure TerminateRequest where
  request : StateRequest
  deriving DecidableEq, Repr

structure ShutdownRequest where
  partitionid : String
  runnr : Nat
  timeout : Nat
  deriving DecidableEq, Repr

structure StatusRequest where
  running : Bool
  deriving DecidableEq, Repr

/-- The accessors `partitionid()`, `runnr()`, `timeout()` that the template `commonParams`
requires of its request type. -/
class CommonRequest (R : Type) where
  partitionid : R → String
  runnr : R → Nat
  timeout : R → Nat

instance : CommonRequest InitializeRequest := ⟨fun r => r.partitionid, fun r => r.runnr, fun r => r.timeout⟩
instance : CommonRequest SubmitRequest := ⟨fun r => r.partitionid, fun r => r.runnr, fun r => r.timeout⟩
instance : CommonRequest ActivateRequest := ⟨fun r => r.partitionid, fun r => r.runnr, fun r => r.timeout⟩
instance : CommonRequest RunRequest := ⟨fun r => r.partitionid, fun r => r.runnr, fun r => r.timeout⟩
instance : CommonRequest UpdateRequest := ⟨fun r => r.partitionid, fun r => r.runnr, fun r => r.timeout⟩
instance : CommonRequest StateRequest := ⟨fun r => r.partitionid, fun r => r.runnr, fun r => r.timeout⟩
instance : CommonRequest SetPropertiesRequest := ⟨fun r => r.partitionid, fun r => r.runnr, fun r => r.timeout⟩
instance : CommonRequest ShutdownRequest := ⟨fun r => r.partitionid, fun r => r.runnr, fun r => r.timeout⟩

/-! ## The control engine seen from the adapters -/

/-- A call of a per-partition engine operation with its arguments. The first argument is of type
`κ`: the gRPC service passes the common parameters, the CLI service the partition ID. -/
inductive EngineCall (κ : Type) where
  | execInitialize (common : κ) (params : SInitializeParams)
  | execSubmit (common : κ) (params : SSubmitParams)
  | execActivate (common : κ) (params : SActivateParams)
  | execRun (common : κ) (initializeParams : SInitializeParams) (submitParams : SSubmitParams)
      (activateParams : SActivateParams)
  | execUpdate (common : κ) (params : SUpdateParams)
  | execGetState (common : κ) (params : SDeviceParams)
  | execSetProperties (common : κ) (params : SSetPropertiesParams)
  | execConfigure (common : κ) (params : SDeviceParams)
  | execStart (common : κ) (params : SDeviceParams)
  | execStop (common : κ) (params : SDeviceParams)
  | execReset (common : κ) (params : SDeviceParams)
  | execTerminate (common : κ) (params : SDeviceParams)
  | execShutdown (common : κ)
  deriving DecidableEq, Repr

/-- The first argument of an engine call. -/
def EngineCall.common {κ : Type} : EngineCall κ → κ
  | .execInitialize c _ => c
  | .execSubmit c _ => c
  | .execActivate c _ => c
  | .execRun c _ _ _ => c
  | .execUpdate c _ => c
  | .execGetState c _ => c
  | .execSetProperties c _ => c
  | .execConfigure c _ => c
  | .execStart c _ => c
  | .execStop c _ => c
  | .execReset c _ => c
  | .execTerminate c _ => c
  | .execShutdown c => c

/-- Parameter of the development: the control engine (`CControlService`, outside the given
sources) as the adapters see it. Every operation takes the engine from one state `σ` to the next
and returns an outcome; nothing else is assumed of it. -/
structure Engine (T : TopologyDecls) (κ σ : Type) where
  exec : σ → EngineCall κ → SReturnValue T × σ
  execStatus : σ → SStatusParams → SStatusReturnValue T × σ

/-! ## The gRPC service (`odc/grpc/GrpcService.cpp`) -/

namespace grpc

/-- What a handler does that other requests can observe. -/
inductive Event where
  /-- A `lock_guard` on a partition mutex is constructed: the mutex is locked. -/
  | lock (mtx : Nat)
  /-- A per-partition engine operation is invoked. -/
  | exec (call : EngineCall SCommonParams)
  /-- The engine's status query is invoked. -/
  | execStatus (params : SStatusParams)
  /-- The response message has been filled in from the outcome. -/
  | reply
  /-- The `lock_guard` goes out of scope: the mutex is unlocked. -/
  | unlock (mtx : Nat)
  deriving DecidableEq, Repr

/-- The service object: the engine `m_service`, the lock map `m_mutexMap`, and the events
recorded so far. -/
structure CGrpcService (σ : Type) where
  m_service : σ
  m_mutexMap : MutexMap
  trace : List Event

namespace CGrpcService

variable {T : TopologyDecls} {σ : Type}

/-- A freshly constructed service around an engine. -/
def new (service : σ) : CGrpcService σ := ⟨service, MutexMap.empty, []⟩

/-- Record an event. -/
def emit (self : CGrpcService σ) (e : Event) : CGrpcService σ :=
  { self with trace := self.trace ++ [e] }

/-- Member function `getMutex`: the lock of a partition, created on first use. -/
def getMutex (self : CGrpcService σ) (_partitionID : partitionID_t) : Nat × CGrpcService σ :=
  ((odc.getMutex self.m_mutexMap _partitionID).1,
   { self with m_mutexMap := (odc.getMutex self.m_mutexMap _partitionID).2 })

/-- Invoke a per-partition operation of `m_service`. -/
def exec (E : Engine T SCommonParams σ) (self : CGrpcService σ) (call : EngineCall SCommonParams) :
    SReturnValue T × CGrpcService σ :=
  ((E.exec self.m_service call).1,
   { self with m_service := (E.exec self.m_service call).2, trace := self.trace ++ [Event.exec call] })

/-- Invoke the status query of `m_service`. -/
def execStatus (E : Engine T SCommonParams σ) (self : CGrpcService σ) (params : SStatusParams) :
    SStatusReturnValue T × CGrpcService σ :=
  ((E.execStatus self.m_service params).1,
   { self with m_service := (E.execStatus self.m_service params).2,
               trace := self.trace ++ [Event.execStatus params] })

end CGrpcService

/-- Template `commonParams`: the common parameters of a request. -/
def commonParams {R : Type} [CommonRequest R] (_request : R) : SCommonParams :=
  ⟨CommonRequest.partitionid _request, CommonRequest.runnr _request, CommonRequest.timeout _request⟩

/-- Function `newError`: the error message of a reply. -/
def newError (_value : SBaseReturnValue) : Error :=
  let error : Error := {}
  let error := { error with code := _value.m_error.m_code.value }
  let error := { error with msg := _value.m_error.m_code.message ++ " (" ++ _value.m_error.m_details ++ ")" }
  error

/-- Function `setupGeneralReply`: fill a general reply from an outcome. -/
def setupGeneralReply (T : TopologyDecls) (_response : GeneralReply) (_value : SReturnValue T) :
    GeneralReply :=
  let _response :=
    if _value.m_statusCode = EStatusCode.ok then
      let _response := { _response with status := ReplyStatus.SUCCESS }
      { _response with msg := _value.m_msg }
    else
      let _response := { _response with status := ReplyStatus.ERROR }
      { _response with error := some (newError _value.toSBaseReturnValue) }
  let _response := { _response with partitionid := _value.m_partitionID }
  let _response := { _response with runnr := _value.m_runNr }
  let _response := { _response with sessionid := _value.m_sessionID }
  let _response := { _response with exectime := _value.m_execTime }
  { _response with state := T.GetAggregatedTopologyStateName _value.m_aggregatedState }

/-- Body of the loop of `setupStateReply`: add one device to the reply and fill it in. -/
def addDevice (T : TopologyDecls) (_response : StateReply) (state : SDeviceStatus T) : StateReply :=
  let device : Device := {}
  let device := { device with path := state.m_path }
  let device := { device with id := state.m_status.taskId }
  let device := { device with state := T.GetStateName state.m_status.state }
  { _response with devices := _response.devices ++ [device] }

/-- Function `setupStateReply`: fill a state reply from an outcome. -/
def setupStateReply (T : TopologyDecls) (_response : StateReply) (_value : SReturnValue T) :
    StateReply :=
  let generalResponse : GeneralReply := {}
  let generalResponse := setupGeneralReply T generalResponse _value
  let _response := { _response with reply := some generalResponse }
  match _value.m_details with
  | some details => details.m_topologyState.foldl (addDevice T) _response
  | none => _response

/-- Body of the loop of `setupStatusReply`: add one partition to the reply and fill it in. -/
def addPartition (T : TopologyDecls) (_response : StatusReply) (p : SPartitionStatus T) :
    StatusReply :=
  let partition : PartitionStatus := {}
  let partition := { partition with partitionid := p.m_partitionID }
  let partition := { partition with sessionid := p.m_sessionID }
  let partition := { partition with status :=
    if p.m_sessionStatus = ESessionStatus.running then SessionStatus.RUNNING else SessionStatus.STOPPED }
  let partition := { partition with state := T.GetAggregatedTopologyStateName p.m_aggregatedState }
  { _response with partitions := _response.partitions ++ [partition] }

/-- Function `setupStatusReply`: fill a status reply from a status outcome. -/
def setupStatusReply (T : TopologyDecls) (_response : StatusReply) (_value : SStatusReturnValue T) :
    StatusReply :=
  let _response :=
    if _value.m_statusCode = EStatusCode.ok then
      let _response := { _response with status := ReplyStatus.SUCCESS }
      { _response with msg := _value.m_msg }
    else
      let _response := { _response with status := ReplyStatus.ERROR }
      { _response with error := some (newError _value.toSBaseReturnValue) }
  let _response := { _response with exectime := _value.m_execTime }
  _value.m_partitions.foldl (addPartition T) _response

/-! ### The request handlers

Every handler is given the service object, the request and the response message to fill, and
returns the filled response and the service object after the call. Logging (`OLOG`,
`logResponse`) has no effect on either and is left out. The `lock_guard` of a handler is
constructed where the source declares it and destroyed when the handler returns. -/

section handlers

variable {T : TopologyDecls} {σ : Type}

/-- Handler `CGrpcService::Initialize`. -/
def Initialize (E : Engine T SCommonParams σ) (self : CGrpcService σ) (request : InitializeRequest)
    (response : GeneralReply) : GeneralReply × CGrpcService σ :=
  let common := commonParams request
  let (mtx, self) := self.getMutex common.m_partitionID
  let self := self.emit (Event.lock mtx)
  let params : SInitializeParams := ⟨request.sessionid⟩
  let (value, self) := self.exec E (EngineCall.execInitialize common params)
  let response := setupGeneralReply T response value
  let self := self.emit Event.reply
  let self := self.emit (Event.unlock mtx)
  (response, self)

/-- Handler `CGrpcService::Submit`. -/
def Submit (E : Engine T SCommonParams σ) (self : CGrpcService σ) (request : SubmitRequest)
    (response : GeneralReply) : GeneralReply × CGrpcService σ :=
  let common := commonParams request
  let (mtx, self) := self.getMutex common.m_partitionID
  let self := self.emit (Event.lock mtx)
  let params : SSubmitParams := ⟨request.plugin, request.resources⟩
  let (value, self) := self.exec E (EngineCall.execSubmit common params)
  let response := setupGeneralReply T response value
  let self := self.emit Event.reply
  let self := self.emit (Event.unlock mtx)
  (response, self)

/-- Handler `CGrpcService::Activate`. -/
def Activate (E : Engine T SCommonParams σ) (self : CGrpcService σ) (request : ActivateRequest)
    (response : GeneralReply) : GeneralReply × CGrpcService σ :=
  let common := commonParams request
  let (mtx, self) := self.getMutex common.m_partitionID
  let self := self.emit (Event.lock mtx)
  let params : SActivateParams := ⟨request.topology, request.content, request.script⟩
  let (value, self) := self.exec E (EngineCall.execActivate common params)
  let response := setupGeneralReply T response value
  let self := self.emit Event.reply
  let self := self.emit (Event.unlock mtx)
  (response, self)

/-- Handler `CGrpcService::Run`. -/
def Run (E : Engine T SCommonParams σ) (self : CGrpcService σ) (request : RunRequest)
    (response : GeneralReply) : GeneralReply × CGrpcService σ :=
  let common := commonParams request
  let (mtx, self) := self.getMutex common.m_partitionID
  let self := self.emit (Event.lock mtx)
  let initializeParams : SInitializeParams := ⟨""⟩
  let submitParams : SSubmitParams := ⟨request.plugin, request.resources⟩
  let activateParams : SActivateParams := ⟨request.topology, request.content, request.script⟩
  let (value, self) := self.exec E (EngineCall.execRun common initializeParams submitParams activateParams)
  let response := setupGeneralReply T response value
  let self := self.emit Event.reply
  let self := self.emit (Event.unlock mtx)
  (response, self)

/-- Handler `CGrpcService::Update`. -/
def Update (E : Engine T SCommonParams σ) (self : CGrpcService σ) (request : UpdateRequest)
    (response : GeneralReply) : GeneralReply × CGrpcService σ :=
  let common := commonParams request
  let (mtx, self) := self.getMutex common.m_partitionID
  let self := self.emit (Event.lock mtx)
  let params : SUpdateParams := ⟨request.topology, request.content, request.script⟩
  let (value, self) := self.exec E (EngineCall.execUpdate common params)
  let response := setupGeneralReply T response value
  let self := self.emit Event.reply
  let self := self.emit (Event.unlock mtx)
  (response, self)

/-- Handler `CGrpcService::GetState`. -/
def GetState (E : Engine T SCommonParams σ) (self : CGrpcService σ) (request : StateRequest)
    (response : StateReply) : StateReply × CGrpcService σ :=
  let common := commonParams request
  let (mtx, self) := self.getMutex common.m_partitionID
  let self := self.emit (Event.lock mtx)
  let params : SDeviceParams := ⟨request.path, request.detailed⟩
  let (value, self) := self.exec E (EngineCall.execGetState common params)
  let response := setupStateReply T response value
  let self := self.emit Event.reply
  let self := self.emit (Event.unlock mtx)
  (response, self)

/-- Handler `CGrpcService::SetProperties`. -/
def SetProperties (E : Engine T SCommonParams σ) (self : CGrpcService σ) (request : SetPropertiesRequest)
    (response : GeneralReply) : GeneralReply × CGrpcService σ :=
  let common := commonParams request
  let (mtx, self) := self.getMutex common.m_partitionID
  let self := self.emit (Event.lock mtx)
  let props : List (String × String) :=
    request.properties.foldl (fun props prop => props ++ [(prop.key, prop.value)]) []
  let params : SSetPropertiesParams := ⟨props, request.path⟩
  let (value, self) := self.exec E (EngineCall.execSetProperties common params)
  let response := setupGeneralReply T response value
  let self := self.emit Event.reply
  let self := self.emit (Event.unlock mtx)
  (response, self)

/-- Handler `CGrpcService::Configure`. -/
def Configure (E : Engine T SCommonParams σ) (self : CGrpcService σ) (request : ConfigureRequest)
    (response : StateReply) : StateReply × CGrpcService σ :=
  let common := commonParams request.request
  let (mtx, self) := self.getMutex common.m_partitionID
  let self := self.emit (Event.lock mtx)
  let params : SDeviceParams := ⟨request.request.path, request.request.detailed⟩
  let (value, self) := self.exec E (EngineCall.execConfigure common params)
  let response := setupStateReply T response value
  let self := self.emit Event.reply
  let self := self.emit (Event.unlock mtx)
  (response, self)

/-- Handler `CGrpcService::Start`. -/
def Start (E : Engine T SCommonParams σ) (self : CGrpcService σ) (request : StartRequest)
    (response : StateReply) : StateReply × CGrpcService σ :=
  let common := commonParams request.request
  let (mtx, self) := self.getMutex common.m_partitionID
  let self := self.emit (Event.lock mtx)
  let params : SDeviceParams := ⟨request.request.path, request.request.detailed⟩
  let (value, self) := self.exec E (EngineCall.execStart common params)
  let response := setupStateReply T response value
  let self := self.emit Event.reply
  let self := self.emit (Event.unlock mtx)
  (response, self)

/-- Handler `CGrpcService::Stop`. -/
def Stop (E : Engine T SCommonParams σ) (self : CGrpcService σ) (request : StopRequest)
    (response : StateReply) : StateReply × CGrpcService σ :=
  let common := commonParams request.request
  let (mtx, self) := self.getMutex common.m_partitionID
  let self := self.emit (Event.lock mtx)
  let params : SDeviceParams := ⟨request.request.path, request.request.detailed⟩
  let (value, self) := self.exec E (EngineCall.execStop common params)
  let response := setupStateReply T response value
  let self := self.emit Event.reply
  let self := self.emit (Event.unlock mtx)
  (response, self)

/-- Handler `CGrpcService::Reset`. -/
def Reset (E : Engine T SCommonParams σ) (self : CGrpcService σ) (request : ResetRequest)
    (response : StateReply) : StateReply × CGrpcService σ :=
  let common := commonParams request.request
  let (mtx, self) := self.getMutex common.m_partitionID
  let self := self.emit (Event.lock mtx)
  let params : SDeviceParams := ⟨request.request.path, request.request.detailed⟩
  let (value, self) := self.exec E (EngineCall.execReset common params)
  let response := setupStateReply T response value
  let self := self.emit Event.reply
  let self := self.emit (Event.unlock mtx)
  (response, self)

/-- Handler `CGrpcService::Terminate`. -/
def Terminate (E : Engine T SCommonParams σ) (self : CGrpcService σ) (request : TerminateRequest)
    (response : StateReply) : StateReply × CGrpcService σ :=
  let common := commonParams request.request
  let (mtx, self) := self.getMutex common.m_partitionID
  let self := self.emit (Event.lock mtx)
  let params : SDeviceParams := ⟨request.request.path, request.request.detailed⟩
  let (value, self) := self.exec E (EngineCall.execTerminate common params)
  let response := setupStateReply T response value
  let self := self.emit Event.reply
  let self := self.emit (Event.unlock mtx)
  (response, self)

/-- Handler `CGrpcService::Shutdown`. -/
def Shutdown (E : Engine T SCommonParams σ) (self : CGrpcService σ) (request : ShutdownRequest)
    (response : GeneralReply) : GeneralReply × CGrpcService σ :=
  let common := commonParams request
  let (mtx, self) := self.getMutex common.m_partitionID
  let self := self.emit (Event.lock mtx)
  let (value, self) := self.exec E (EngineCall.execShutdown common)
  let response := setupGeneralReply T response value
  let self := self.emit Event.reply
  let self := self.emit (Event.unlock mtx)
  (response, self)

/-- Handler `CGrpcService::Status`. -/
def Status (E : Engine T SCommonParams σ) (self : CGrpcService σ) (request : StatusRequest)
    (response : StatusReply) : StatusReply × CGrpcService σ :=
  let (value, self) := self.execStatus E (SStatusParams.mk request.running)
  let response := setupStatusReply T response value
  let self := self.emit Event.reply
  (response, self)

end handlers

/-- The handler serialised the request on the lock of partition `partitionid`: starting from
`self` and ending in `after`, it locked the mutex that `getMutex` gives for `partitionid` (the one
stored under that ID afterwards), invoked one engine operation for that partition, filled in the
reply and only then unlocked the mutex. -/
def Guarded {σ : Type} (self after : CGrpcService σ) (partitionid : String) : Prop :=
  ∃ call : EngineCall SCommonParams,
    call.common.m_partitionID = partitionid ∧
    after.m_mutexMap.find partitionid = some (odc.getMutex self.m_mutexMap partitionid).1 ∧
    after.trace = self.trace ++
      [Event.lock (odc.getMutex self.m_mutexMap partitionid).1, Event.exec call, Event.reply,
       Event.unlock (odc.getMutex self.m_mutexMap partitionid).1]

end grpc

/-! ## The CLI control service (`cli-server/src/CliControlService.cpp`) -/

namespace cli

/-- Body of the device loop of `generalReply`: print one device. -/
def printDevice (T : TopologyDecls) (ss : String) (state : SDeviceStatus T) : String :=
  ss ++ "    \x7b id: " ++ toString state.m_status.taskId ++ "; path: " ++ state.m_path
    ++ "; state: " ++ T.GetStateName state.m_status.state ++ " \x7d" ++ "\n"

/-- Function `CCliControlService::generalReply`: the reply text of an outcome. -/
def generalReply (T : TopologyDecls) (_value : SReturnValue T) : String :=
  let ss := ""
  let ss :=
    if _value.m_statusCode = EStatusCode.ok then
      ss ++ "  Status code: SUCCESS\n  Message: " ++ _value.m_msg ++ "\n"
    else
      ss ++ "  Status code: ERROR\n  Error code: " ++ toString _value.m_error.m_code.value
        ++ "\n  Error message: " ++ _value.m_error.m_code.message ++ " (" ++ _value.m_error.m_details ++ ")"
        ++ "\n"
  let ss := ss ++ "  Aggregated state: " ++ showAggregatedState T _value.m_aggregatedState ++ "\n"
  let ss := ss ++ "  Partition ID: " ++ _value.m_partitionID ++ "\n"
  let ss := ss ++ "  Session ID: " ++ _value.m_sessionID ++ "\n"
  let ss :=
    match _value.m_details with
    | some details =>
      let ss := ss ++ "\n" ++ "  Devices: " ++ "\n"
      let ss := details.m_topologyState.foldl (printDevice T) ss
      ss ++ "\n"
    | none => ss
  let ss := ss ++ "  Execution time: " ++ toString _value.m_execTime ++ " msec" ++ "\n"
  ss

/-- The CLI service object: the engine `m_service` and the engine calls issued so far. -/
structure CCliControlService (σ : Type) where
  m_service : σ
  calls : List (EngineCall partitionID_t)

/-- Invoke a per-partition operation of `m_service`, given the partition ID as first argument. -/
def CCliControlService.exec {T : TopologyDecls} {σ : Type} (E : Engine T partitionID_t σ)
    (self : CCliControlService σ) (call : EngineCall partitionID_t) :
    SReturnValue T × CCliControlService σ :=
  ((E.exec self.m_service call).1,
   { self with m_service := (E.exec self.m_service call).2, calls := self.calls ++ [call] })

section requests

variable {T : TopologyDecls} {σ : Type}

/-- Method `CCliControlService::requestInitialize`. -/
def requestInitialize (E : Engine T partitionID_t σ) (self : CCliControlService σ)
    (_partitionID : partitionID_t) (_params : SInitializeParams) : String × CCliControlService σ :=
  (generalReply T (self.exec E (EngineCall.execInitialize _partitionID _params)).1,
   (self.exec E (EngineCall.execInitialize _partitionID _params)).2)

/-- Method `CCliControlService::requestSubmit`. -/
def requestSubmit (E : Engine T partitionID_t σ) (self : CCliControlService σ)
    (_partitionID : partitionID_t) (_params : SSubmitParams) : String × CCliControlService σ :=
  (generalReply T (self.exec E (EngineCall.execSubmit _partitionID _params)).1,
   (self.exec E (EngineCall.execSubmit _partitionID _params)).2)

/-- Method `CCliControlService::requestActivate`. -/
def requestActivate (E : Engine T partitionID_t σ) (self : CCliControlService σ)
    (_partitionID : partitionID_t) (_params : SActivateParams) : String × CCliControlService σ :=
  (generalReply T (self.exec E (EngineCall.execActivate _partitionID _params)).1,
   (self.exec E (EngineCall.execActivate _partitionID _params)).2)

/-- Method `CCliControlService::requestRun`. -/
def requestRun (E : Engine T partitionID_t σ) (self : CCliControlService σ)
    (_partitionID : partitionID_t) (_initializeParams : SInitializeParams)
    (_submitParams : SSubmitParams) (_activateParams : SActivateParams) : String × CCliControlService σ :=
  (generalReply T (self.exec E (EngineCall.execRun _partitionID _initializeParams _submitParams _activateParams)).1,
   (self.exec E (EngineCall.execRun _partitionID _initializeParams _submitParams _activateParams)).2)

/-- Method `CCliControlService::requestUpscale`. -/
def requestUpscale (E : Engine T partitionID_t σ) (self : CCliControlService σ)
    (_partitionID : partitionID_t) (_params : SUpdateParams) : String × CCliControlService σ :=
  (generalReply T (self.exec E (EngineCall.execUpdate _partitionID _params)).1,
   (self.exec E (EngineCall.execUpdate _partitionID _params)).2)

/-- Method `CCliControlService::requestDownscale`. -/
def requestDownscale (E : Engine T partitionID_t σ) (self : CCliControlService σ)
    (_partitionID : partitionID_t) (_params : SUpdateParams) : String × CCliControlService σ :=
  (generalReply T (self.exec E (EngineCall.execUpdate _partitionID _params)).1,
   (self.exec E (EngineCall.execUpdate _partitionID _params)).2)

/-- Method `CCliControlService::requestGetState`. -/
def requestGetState (E : Engine T partitionID_t σ) (self : CCliControlService σ)
    (_partitionID : partitionID_t) (_params : SDeviceParams) : String × CCliControlService σ :=
  (generalReply T (self.exec E (EngineCall.execGetState _partitionID _params)).1,
   (self.exec E (EngineCall.execGetState _partitionID _params)).2)

/-- Method `CCliControlService::requestSetProperties`. -/
def requestSetProperties (E : Engine T partitionID_t σ) (self : CCliControlService σ)
    (_partitionID : partitionID_t) (_params : SSetPropertiesParams) : String × CCliControlService σ :=
  (generalReply T (self.exec E (EngineCall.execSetProperties _partitionID _params)).1,
   (self.exec E (EngineCall.execSetProperties _partitionID _params)).2)

/-- Method `CCliControlService::requestConfigure`. -/
def requestConfigure (E : Engine T partitionID_t σ) (self : CCliControlService σ)
    (_partitionID : partitionID_t) (_params : SDeviceParams) : String × CCliControlService σ :=
  (generalReply T (self.exec E (EngineCall.execConfigure _partitionID _params)).1,
   (self.exec E (EngineCall.execConfigure _partitionID _params)).2)

/-- Method `CCliControlService::requestStart`. -/
def requestStart (E : Engine T partitionID_t σ) (self : CCliControlService σ)
    (_partitionID : partitionID_t) (_params : SDeviceParams) : String × CCliControlService σ :=
  (generalReply T (self.exec E (EngineCall.execStart _partitionID _params)).1,
   (self.exec E (EngineCall.execStart _partitionID _params)).2)

/-- Method `CCliControlService::requestStop`. -/
def requestStop (E : Engine T partitionID_t σ) (self : CCliControlService σ)
    (_partitionID : partitionID_t) (_params : SDeviceParams) : String × CCliControlService σ :=
  (generalReply T (self.exec E (EngineCall.execStop _partitionID _params)).1,
   (self.exec E (EngineCall.execStop _partitionID _params)).2)

/-- Method `CCliControlService::requestReset`. -/
def requestReset (E : Engine T partitionID_t σ) (self : CCliControlService σ)
    (_partitionID : partitionID_t) (_params : SDeviceParams) : String × CCliControlService σ :=
  (generalReply T (self.exec E (EngineCall.execReset _partitionID _params)).1,
   (self.exec E (EngineCall.execReset _partitionID _params)).2)

/-- Method `CCliControlService::requestTerminate`. -/
def requestTerminate (E : Engine T partitionID_t σ) (self : CCliControlService σ)
    (_partitionID : partitionID_t) (_params : SDeviceParams) : String × CCliControlService σ :=
  (generalReply T (self.exec E (EngineCall.execTerminate _partitionID _params)).1,
   (self.exec E (EngineCall.execTerminate _partitionID _params)).2)

/-- Method `CCliControlService::requestShutdown`. -/
def requestShutdown (E : Engine T partitionID_t σ) (self : CCliControlService σ)
    (_partitionID : partitionID_t) : String × CCliControlService σ :=
  (generalReply T (self.exec E (EngineCall.execShutdown _partitionID)).1,
   (self.exec E (EngineCall.execShutdown _partitionID)).2)

end requests

end cli

/-! ## The generic command loop (`core/src/CliServiceHelper.h`) -/

namespace core

/-- The predicate `boost::is_any_of("\t ")`: a tab or a space. -/
def isSeparator (c : Char) : Bool :=
  c = '\t' || c = ' '

/-- The tokens of `boost::split` in its default mode (adjacent separators are not merged): the
input is cut at every character satisfying the predicate; an input with `n` such characters has
`n + 1` tokens, some of which may be empty. -/
def splitChars (isSep : Char → Bool) : List Char → List (List Char)
  | [] => [[]]
  | c :: cs =>
    if isSep c then [] :: splitChars isSep cs
    else
      match splitChars isSep cs with
      | [] => [[c]]
      | t :: ts => (c :: t) :: ts

/-- The call `boost::split(cmds, _cmd, pred)` on strings. -/
def split (_cmd : String) (isSep : Char → Bool) : List String :=
  (splitChars isSep _cmd.data).map String.mk

/-- A call of a request method of the owner, `p->requestXxx(...)`, with its arguments. -/
inductive Request where
  | requestInitialize (_partitionID : partitionID_t) (_params : SInitializeParams)
  | requestSubmit (_partitionID : partitionID_t) (_params : SSubmitParams)
  | requestActivate (_partitionID : partitionID_t) (_params : SActivateParams)
  | requestRun (_partitionID : partitionID_t) (_initializeParams : SInitializeParams)
      (_submitParams : SSubmitParams) (_activateParams : SActivateParams)
  | requestUpscale (_partitionID : partitionID_t) (_params : SUpdateParams)
  | requestDownscale (_partitionID : partitionID_t) (_params : SUpdateParams)
  | requestConfigure (_partitionID : partitionID_t) (_params : SDeviceParams)
  | requestGetState (_partitionID : partitionID_t) (_params : SDeviceParams)
  | requestSetProperties (_partitionID : partitionID_t) (_params : SSetPropertiesParams)
  | requestStart (_partitionID : partitionID_t) (_params : SDeviceParams)
  | requestStop (_partitionID : partitionID_t) (_params : SDeviceParams)
  | requestReset (_partitionID : partitionID_t) (_params : SDeviceParams)
  | requestTerminate (_partitionID : partitionID_t) (_params : SDeviceParams)
  | requestShutdown (_partitionID : partitionID_t)
  deriving DecidableEq, Repr

/-- The partition ID a request is made for (the first argument of every request method). -/
def Request.partitionID : Request → partitionID_t
  | .requestInitialize p _ => p
  | .requestSubmit p _ => p
  | .requestActivate p _ => p
  | .requestRun p _ _ _ => p
  | .requestUpscale p _ => p
  | .requestDownscale p _ => p
  | .requestConfigure p _ => p
  | .requestGetState p _ => p
  | .requestSetProperties p _ => p
  | .requestStart p _ => p
  | .requestStop p _ => p
  | .requestReset p _ => p
  | .requestTerminate p _ => p
  | .requestShutdown p => p

/-- The template parameter `OwnerT`: an object of state `ω` that answers every request method
with a reply string. -/
structure OwnerT (ω : Type) where
  request : ω → Request → String × ω

/-- What the command loop does that can be observed from outside. -/
inductive Event where
  /-- The function `processRequest` is entered with a partition ID and a command line. -/
  | call (_partitionID : partitionID_t) (_cmd : String)
  /-- A request method of the owner is called. -/
  | request (r : Request)
  /-- A non-empty reply is printed. -/
  | reply (replyString : String)
  deriving DecidableEq, Repr

/-- The running program: the owner object and the events so far. -/
structure Process (ω : Type) where
  owner : ω
  trace : List Event

/-- How a piece of the program ends: it returns to its caller, or it has called
`exit(EXIT_SUCCESS)` and the program is over. -/
inductive Step (ω : Type) where
  | running (s : Process ω)
  | exited (s : Process ω)

/-- The program state a step ends in. -/
def Step.state {ω : Type} : Step ω → Process ω
  | .running s => s
  | .exited s => s

/-- Record an event. -/
def Process.emit {ω : Type} (s : Process ω) (e : Event) : Process ω :=
  { s with trace := s.trace ++ [e] }

/-- Call a request method of the owner. -/
def Process.request {ω : Type} (O : OwnerT ω) (s : Process ω) (r : Request) : String × Process ω :=
  ((O.request s.owner r).1,
   { owner := (O.request s.owner r).2, trace := s.trace ++ [Event.request r] })

/-- The calls of `processRequest` in a trace, in order. -/
def callsOf (trace : List Event) : List (partitionID_t × String) :=
  trace.filterMap (fun e => match e with
    | Event.call v cmd => some (v, cmd)
    | _ => none)

/-- The requests made to the owner in a trace, in order. -/
def requestsOf (trace : List Event) : List Request :=
  trace.filterMap (fun e => match e with
    | Event.request r => some r
    | _ => none)

/-- The replies printed in a trace, in order. -/
def repliesOf (trace : List Event) : List String :=
  trace.filterMap (fun e => match e with
    | Event.reply t => some t
    | _ => none)

/-- The data members of `CCliServiceHelper`. -/
structure CCliServiceHelper where
  m_partitionIDs : List partitionID_t
  m_initializeParams : SInitializeParams
  m_submitParams : SSubmitParams
  m_activateParams : SActivateParams
  m_upscaleParams : SUpdateParams
  m_downscaleParams : SUpdateParams
  m_recoDeviceParams : SDeviceParams
  m_qcDeviceParams : SDeviceParams
  m_allDeviceParams : SDeviceParams
  m_setPropertiesParams : SSetPropertiesParams
  m_timeout : Nat
  deriving DecidableEq, Repr

namespace CCliServiceHelper

def setPartitionIDs (self : CCliServiceHelper) (_partitionIDs : List partitionID_t) :
    CCliServiceHelper :=
  { self with m_partitionIDs := _partitionIDs }

def setInitializeParams (self : CCliServiceHelper) (_params : SInitializeParams) :
    CCliServiceHelper :=
  { self with m_initializeParams := _params }

def setSubmitParams (self : CCliServiceHelper) (_params : SSubmitParams) : CCliServiceHelper :=
  { self with m_submitParams := _params }

def setActivateParams (self : CCliServiceHelper) (_params : SActivateParams) :
    CCliServiceHelper :=
  { self with m_activateParams := _params }

def setUpscaleParams (self : CCliServiceHelper) (_params : SUpdateParams) : CCliServiceHelper :=
  { self with m_upscaleParams := _params }

def setDownscaleParams (self : CCliServiceHelper) (_params : SUpdateParams) : CCliServiceHelper :=
  { self with m_downscaleParams := _params }

def setRecoDeviceParams (self : CCliServiceHelper) (_params : SDeviceParams) : CCliServiceHelper :=
  { self with m_recoDeviceParams := _params }

def setQCDeviceParams (self : CCliServiceHelper) (_params : SDeviceParams) : CCliServiceHelper :=
  { self with m_qcDeviceParams := _params }

def setTimeout (self : CCliServiceHelper) (_timeout : Nat) : CCliServiceHelper :=
  { self with m_timeout := _timeout }

def setSetPropertiesParams (self : CCliServiceHelper) (_params : SSetPropertiesParams) :
    CCliServiceHelper :=
  { self with m_setPropertiesParams := _params }

/-- Function `stringToDeviceParams`: the device parameters a word selects. -/
def stringToDeviceParams (self : CCliServiceHelper) (_str : String) : SDeviceParams :=
  if _str = "reco" then self.m_recoDeviceParams
  else if _str = "qc" then self.m_qcDeviceParams
  else self.m_allDeviceParams

end CCliServiceHelper

section loop

variable {ω : Type}

/-- Function `processRequest`: run one command line for one partition. Progress lines are
logged only and left out; a reply is printed when the reply string is not empty. -/
def processRequest (O : OwnerT ω) (self : CCliServiceHelper) (s : Process ω)
    (_partitionID : partitionID_t) (_cmd : String) : Step ω :=
  let s := s.emit (Event.call _partitionID _cmd)
  if _cmd = ".quit" then
    Step.exited s
  else
    let replyString : String := ""
    let cmds := split _cmd isSeparator
    let cmd : String := match cmds with
      | [] => ""
      | front :: _ => front
    let par : String := match cmds with
      | _ :: second :: _ => second
      | _ => ""
    let (replyString, s) :=
      if cmd = ".init" then
        s.request O (Request.requestInitialize _partitionID self.m_initializeParams)
      else if cmd = ".submit" then
        s.request O (Request.requestSubmit _partitionID self.m_submitParams)
      else if cmd = ".activate" then
        s.request O (Request.requestActivate _partitionID self.m_activateParams)
      else if cmd = ".run" then
        s.request O (Request.requestRun _partitionID self.m_initializeParams self.m_submitParams
          self.m_activateParams)
      else if cmd = ".upscale" then
        s.request O (Request.requestUpscale _partitionID self.m_upscaleParams)
      else if cmd = ".downscale" then
        s.request O (Request.requestDownscale _partitionID self.m_downscaleParams)
      else if cmd = ".config" then
        s.request O (Request.requestConfigure _partitionID (self.stringToDeviceParams par))
      else if cmd = ".state" then
        s.request O (Request.requestGetState _partitionID (self.stringToDeviceParams par))
      else if cmd = ".prop" then
        s.request O (Request.requestSetProperties _partitionID self.m_setPropertiesParams)
      else if cmd = ".start" then
        s.request O (Request.requestStart _partitionID (self.stringToDeviceParams par))
      else if cmd = ".stop" then
        s.request O (Request.requestStop _partitionID (self.stringToDeviceParams par))
      else if cmd = ".reset" then
        s.request O (Request.requestReset _partitionID (self.stringToDeviceParams par))
      else if cmd = ".term" then
        s.request O (Request.requestTerminate _partitionID (self.stringToDeviceParams par))
      else if cmd = ".down" then
        s.request O (Request.requestShutdown _partitionID)
      else
        (replyString, s)
    let s := if replyString ≠ "" then s.emit (Event.reply replyString) else s
    Step.running s

/-- The loop `for (auto v : m_partitionIDs) processRequest(v, cmd)` over the partition IDs that
are left; it ends early when the program exits. -/
def forPartitionIDs (O : OwnerT ω) (self : CCliServiceHelper) (cmd : String) :
    List partitionID_t → Process ω → Step ω
  | [], s => Step.running s
  | v :: vs, s =>
    match processRequest O self s v cmd with
    | Step.exited s => Step.exited s
    | Step.running s => forPartitionIDs O self cmd vs s

/-- The loop `for (const auto& cmd : _cmds)` over the commands that are left: every command is
sent to all partition IDs, then the loop waits for the delay (not modelled) and goes on. -/
def forCommands (O : OwnerT ω) (self : CCliServiceHelper) :
    List String → Process ω → Step ω
  | [], s => Step.running s
  | cmd :: cmds, s =>
    match forPartitionIDs O self cmd self.m_partitionIDs s with
    | Step.exited s => Step.exited s
    | Step.running s => forCommands O self cmds s

/-- Function `run`. The description printed first is log output and left out. With commands
given, they are executed one after the other and the program exits. With no commands, the lines of the standard input are executed as they come: `input` holds
the lines read so far, and as the loop `while (true)` never ends by itself the result is the state
reached when these lines have been processed (`running`), unless the program has exited. -/
def run (O : OwnerT ω) (self : CCliServiceHelper) (s : Process ω) (_cmds : List String)
    (input : List String) : Step ω :=
  if _cmds.isEmpty then
    forCommands O self input s
  else
    match forCommands O self _cmds s with
    | Step.exited s => Step.exited s
    | Step.running s => Step.exited s

end loop

/-! ### Vocabulary of the properties of the command loop -/

/-- The command of a command line: `cmds.empty() ? "" : cmds.front()`. -/
def commandToken (_cmd : String) : String :=
  match split _cmd isSeparator with
  | [] => ""
  | front :: _ => front

/-- The parameter of a command line: `cmds.size() > 1 ? cmds[1] : ""`. -/
def parameterToken (_cmd : String) : String :=
  match split _cmd isSeparator with
  | _ :: second :: _ => second
  | _ => ""

/-- The documented commands other than ".quit" (`printDescription`) and, for each, the request
it stands for, given the partition ID, the stored parameters and the selected device
parameters. -/
def documentedRequests (self : CCliServiceHelper) (_partitionID : partitionID_t)
    (deviceParams : SDeviceParams) : List (String × Request) :=
  [(".init", Request.requestInitialize _partitionID self.m_initializeParams),
   (".submit", Request.requestSubmit _partitionID self.m_submitParams),
   (".activate", Request.requestActivate _partitionID self.m_activateParams),
   (".run", Request.requestRun _partitionID self.m_initializeParams self.m_submitParams
      self.m_activateParams),
   (".upscale", Request.requestUpscale _partitionID self.m_upscaleParams),
   (".downscale", Request.requestDownscale _partitionID self.m_downscaleParams),
   (".config", Request.requestConfigure _partitionID deviceParams),
   (".state", Request.requestGetState _partitionID deviceParams),
   (".prop", Request.requestSetProperties _partitionID self.m_setPropertiesParams),
   (".start", Request.requestStart _partitionID deviceParams),
   (".stop", Request.requestStop _partitionID deviceParams),
   (".reset", Request.requestReset _partitionID deviceParams),
   (".term", Request.requestTerminate _partitionID deviceParams),
   (".down", Request.requestShutdown _partitionID)]

/-- The device commands and, for each, its request with the given device parameters. -/
def deviceRequests (_partitionID : partitionID_t) (deviceParams : SDeviceParams) :
    List (String × Request) :=
  [(".state", Request.requestGetState _partitionID deviceParams),
   (".config", Request.requestConfigure _partitionID deviceParams),
   (".start", Request.requestStart _partitionID deviceParams),
   (".stop", Request.requestStop _partitionID deviceParams),
   (".reset", Request.requestReset _partitionID deviceParams),
   (".term", Request.requestTerminate _partitionID deviceParams)]

/-- Every command paired with every partition ID, command by command: all partition IDs in
list order for the first command, then all for the second, and so on. -/
def commandMajor (cmds : List String) (ids : List partitionID_t) : List (partitionID_t × String) :=
  (cmds.map (fun cmd => ids.map (fun v => (v, cmd)))).flatten

/-- A list of calls cut after its first call for ".quit": the calls before it, and that call. A
list without a call for ".quit" is left whole. -/
def untilQuit : List (partitionID_t × String) → List (partitionID_t × String)
  | [] => []
  | c :: cs => if c.2 = ".quit" then [c] else c :: untilQuit cs

end core

/-! ## The CLI control service as owner of the command loop -/

namespace cli

/-- The class `CCliControlService` as the `OwnerT` of the command loop: every request method is
the member function of that name. -/
def owner {T : TopologyDecls} {σ : Type} (E : Engine T partitionID_t σ) :
    core.OwnerT (CCliControlService σ) where
  request := fun self r =>
    match r with
    | .requestInitialize p params => requestInitialize E self p params
    | .requestSubmit p params => requestSubmit E self p params
    | .requestActivate p params => requestActivate E self p params
    | .requestRun p i su a => requestRun E self p i su a
    | .requestUpscale p params => requestUpscale E self p params
    | .requestDownscale p params => requestDownscale E self p params
    | .requestConfigure p params => requestConfigure E self p params
    | .requestGetState p params => requestGetState E self p params
    | .requestSetProperties p params => requestSetProperties E self p params
    | .requestStart p params => requestStart E self p params
    | .requestStop p params => requestStop E self p params
    | .requestReset p params => requestReset E self p params
    | .requestTerminate p params => requestTerminate E self p params
    | .requestShutdown p => requestShutdown E self p

end cli

/-! ## The device state aggregator -/

/-- Modelled from the spec: the aggregated state of a partition (§3, §4.5): `Undefined`, `Mixed`,
or the lifecycle state all devices share. Its declaration (`AggregatedTopologyState` of
`odc/Topology.h`) is not among the sources. -/
inductive AggregatedState (State : Type) where
  | Undefined
  | Mixed
  | Uniform (state : State)
  deriving DecidableEq, Repr

/-- Modelled from the spec: the Device State Aggregator (§4.5), which is not among the sources.
"If the set is empty, aggregated state is a defined `Undefined` value. If every device reports the
same lifecycle state, the aggregated state equals that state. If devices report differing states,
the aggregated state is a defined `Mixed` value." -/
def aggregateState {T : TopologyDecls} [DecidableEq T.State] :
    List (SDeviceStatus T) → AggregatedState T.State
  | [] => AggregatedState.Undefined
  | d :: ds =>
    if ds.all (fun x => decide (x.m_status.state = d.m_status.state)) then
      AggregatedState.Uniform d.m_status.state
    else
      AggregatedState.Mixed

/-! ## Concrete inputs -/

/-- States named by strings, each state being its own name. -/
def namedStates : TopologyDecls := ⟨String, String, id, id⟩

/-- An error outcome: error 42 "Timeout" with detail "no reply", run number 7. -/
def timeoutOutcome : SReturnValue namedStates :=
  { m_statusCode := EStatusCode.error
    m_msg := ""
    m_execTime := 15
    m_error := ⟨⟨42, "Timeout"⟩, "no reply"⟩
    m_partitionID := "p1"
    m_runNr := 7
    m_sessionID := "s1"
    m_aggregatedState := "READY"
    m_details := none }

/-- A successful outcome with two devices in its detail, run number 7. -/
def readyOutcome : SReturnValue namedStates :=
  { m_statusCode := EStatusCode.ok
    m_msg := "done"
    m_execTime := 15
    m_error := ⟨⟨0, ""⟩, ""⟩
    m_partitionID := "p1"
    m_runNr := 7
    m_sessionID := "s1"
    m_aggregatedState := "READY"
    m_details := some ⟨[⟨⟨1, "READY"⟩, "main/a"⟩, ⟨⟨2, "READY"⟩, "main/b"⟩]⟩ }

instance : DecidableEq namedStates.State := inferInstanceAs (DecidableEq String)

/-- A helper with two partition IDs and distinguishable stored parameters. -/
def sampleHelper : core.CCliServiceHelper :=
  { m_partitionIDs := ["a", "b"]
    m_initializeParams := ⟨"sid"⟩
    m_submitParams := ⟨"plugin", "resources"⟩
    m_activateParams := ⟨"topo.xml", "", ""⟩
    m_upscaleParams := ⟨"up.xml", "", ""⟩
    m_downscaleParams := ⟨"down.xml", "", ""⟩
    m_recoDeviceParams := ⟨"main/Reco", false⟩
    m_qcDeviceParams := ⟨"main/QC", false⟩
    m_allDeviceParams := ⟨"", false⟩
    m_setPropertiesParams := ⟨[("key", "value")], ""⟩
    m_timeout := 30 }

/-- An owner without state that answers every request with "ok". -/
def sampleOwner : core.OwnerT Unit := ⟨fun _ _ => ("ok", ())⟩

/-- A program that has not done anything yet. -/
def sampleStart : core.Process Unit := ⟨(), []⟩

end odc

namespace odc

/-! ## Properties of the lock map -/

theorem MutexMap.find_cons (k q : partitionID_t) (x c : Nat) (l : List (partitionID_t × Nat)) :
    MutexMap.find ⟨(k, x) :: l, c⟩ q = if q = k then some x else MutexMap.find ⟨l, c⟩ q := by
  unfold MutexMap.find
  by_cases h : q = k
  · subst h; simp [List.lookup]
  · have : (q == k) = false := by simpa using h
    simp [List.lookup, this, h]

theorem MutexMap.find_eq_none_iff (m : MutexMap) (q : partitionID_t) :
    m.find q = none ↔ q ∉ m.keys := by
  obtain ⟨l, c⟩ := m
  induction l with
  | nil => simp [MutexMap.find, MutexMap.keys]
  | cons a l ih =>
    obtain ⟨k, x⟩ := a
    rw [MutexMap.find_cons]
    by_cases h : q = k
    · subst h; simp [MutexMap.keys]
    · simp only [h, if_false]
      rw [ih]
      simp [MutexMap.keys, h]

theorem getMutex_of_find_some {m : MutexMap} {p : partitionID_t} {x : Nat}
    (h : m.find p = some x) : getMutex m p = (x, m) := by
  simp [getMutex, h]

theorem getMutex_of_find_none {m : MutexMap} {p : partitionID_t}
    (h : m.find p = none) :
    getMutex m p = (m.constructed, ⟨(p, m.constructed) :: m.nodes, m.constructed + 1⟩) := by
  simp [getMutex, MutexMap.index, h]

/-- After `getMutex m p` the lookup of any ID: the new lock for `p` when `p` had none, the old
lookup otherwise. -/
theorem getMutex_find (m : MutexMap) (p q : partitionID_t) :
    (getMutex m p).2.find q =
      if q = p ∧ m.find p = none then some m.constructed else m.find q := by
  cases h : m.find p with
  | some x => rw [getMutex_of_find_some h]; simp
  | none =>
    rw [getMutex_of_find_none h]
    show MutexMap.find ⟨(p, m.constructed) :: m.nodes, m.constructed + 1⟩ q = _
    rw [MutexMap.find_cons]
    by_cases hq : q = p
    · simp [hq]
    · simp only [hq, if_false, false_and]
      rfl

theorem getMutex_find_self (m : MutexMap) (p : partitionID_t) :
    (getMutex m p).2.find p = some (getMutex m p).1 := by
  cases h : m.find p with
  | some x => rw [getMutex_of_find_some h]; exact h
  | none =>
    rw [getMutex_find]
    simp [h, getMutex_of_find_none h]

theorem getMutex_find_preserved {m : MutexMap} {q : partitionID_t} {x : Nat} (p : partitionID_t)
    (h : m.find q = some x) : (getMutex m p).2.find q = some x := by
  rw [getMutex_find]
  by_cases hq : q = p
  · subst hq; simp [h]
  · simp [hq, h]

theorem getMutexMapAfter_find_preserved (ps : List partitionID_t) :
    ∀ {m : MutexMap} {q : partitionID_t} {x : Nat}, m.find q = some x →
      (getMutexMapAfter m ps).find q = some x := by
  induction ps with
  | nil => intro m q x h; exact h
  | cons p ps ih =>
    intro m q x h
    show (getMutexMapAfter (getMutex m p).2 ps).find q = some x
    exact ih (getMutex_find_preserved p h)

theorem getMutex_keys (m : MutexMap) (p q : partitionID_t) :
    q ∈ (getMutex m p).2.keys ↔ q = p ∨ q ∈ m.keys := by
  cases h : m.find p with
  | some x =>
    rw [getMutex_of_find_some h]
    have hp : p ∈ m.keys := by
      by_contra hc
      rw [(MutexMap.find_eq_none_iff m p).2 hc] at h
      cases h
    constructor
    · intro hq; exact Or.inr hq
    · rintro (rfl | hq)
      · exact hp
      · exact hq
  | none =>
    rw [getMutex_of_find_none h]
    simp [MutexMap.keys]

theorem MutexMap.WF_empty : MutexMap.empty.WF := by
  constructor <;> intro k <;> simp [MutexMap.empty, MutexMap.find]

theorem getMutex_WF {m : MutexMap} (p : partitionID_t) (h : m.WF) : (getMutex m p).2.WF := by
  cases hf : m.find p with
  | some x => rw [getMutex_of_find_some hf]; exact h
  | none =>
    have hc : (getMutex m p).2.constructed = m.constructed + 1 := by
      rw [getMutex_of_find_none hf]
    obtain ⟨hb, hi⟩ := h
    constructor
    · intro k x hk
      rw [getMutex_find] at hk
      rw [hc]
      by_cases hq : k = p
      · simp [hq, hf] at hk; omega
      · simp [hq] at hk
        have := hb k x hk
        omega
    · intro k₁ k₂ x h₁ h₂
      rw [getMutex_find] at h₁ h₂
      by_cases hq₁ : k₁ = p <;> by_cases hq₂ : k₂ = p
      · rw [hq₁, hq₂]
      · simp [hq₁, hf] at h₁
        simp [hq₂] at h₂
        have := hb k₂ x h₂
        omega
      · simp [hq₂, hf] at h₂
        simp [hq₁] at h₁
        have := hb k₁ x h₁
        omega
      · simp [hq₁] at h₁
        simp [hq₂] at h₂
        exact hi k₁ k₂ x h₁ h₂

theorem getMutexMapAfter_WF (ps : List partitionID_t) :
    ∀ {m : MutexMap}, m.WF → (getMutexMapAfter m ps).WF := by
  induction ps with
  | nil => intro m h; exact h
  | cons p ps ih => intro m h; exact ih (getMutex_WF p h)

theorem getMutexCalls_length (ps : List partitionID_t) :
    ∀ m : MutexMap, (getMutexCalls m ps).length = ps.length := by
  induction ps with
  | nil => intro m; rfl
  | cons p ps ih => intro m; simp [getMutexCalls, ih]

/-- The lock returned by the `i`-th call of a sequence is the lock stored under the `i`-th ID
once the whole sequence has run. -/
theorem getMutexCalls_find (ps : List partitionID_t) :
    ∀ (m : MutexMap) (i : Fin ps.length),
      (getMutexMapAfter m ps).find (ps.get i) = (getMutexCalls m ps)[i.1]? := by
  induction ps with
  | nil => intro m i; exact i.elim0
  | cons p ps ih =>
    intro m i
    obtain ⟨i, hi⟩ := i
    cases i with
    | zero =>
      show (getMutexMapAfter (getMutex m p).2 ps).find p = _
      simp only [getMutexCalls, List.getElem?_cons_zero]
      exact getMutexMapAfter_find_preserved ps (getMutex_find_self m p)
    | succ i =>
      have hi2 : i < ps.length := by simpa using hi
      have := ih (getMutex m p).2 ⟨i, hi2⟩
      simpa [getMutexCalls] using this

end odc

namespace odc

/-- C2: after `getMutex m p` the partition IDs of the lock map are exactly the previous ones with
`p` added (a node is inserted only for `p`, and only when `p` had no lock); the lock stored under
any other ID is untouched, a lock that exists is neither removed nor replaced, and over any
sequence of calls every ID keeps its lock, so the key set only grows. -/
theorem getMutex_lock_map_only_grows (m : MutexMap) (p : partitionID_t) :
    (∀ q, q ∈ (getMutex m p).2.keys ↔ q = p ∨ q ∈ m.keys) ∧
    (getMutex m p).2.keys = (if p ∈ m.keys then m.keys else p :: m.keys) ∧
    (∀ q, q ≠ p → (getMutex m p).2.find q = m.find q) ∧
    (∀ q x, m.find q = some x → (getMutex m p).2.find q = some x) ∧
    (∀ ps q x, m.find q = some x → (getMutexMapAfter m ps).find q = some x) ∧
    (∀ ps q, q ∈ m.keys → q ∈ (getMutexMapAfter m ps).keys) := by
  refine ⟨getMutex_keys m p, ?_, ?_, ?_, ?_, ?_⟩
  · cases h : m.find p with
    | some x =>
      have hp : p ∈ m.keys := by
        by_contra hc
        rw [(MutexMap.find_eq_none_iff m p).2 hc] at h
        cases h
      rw [getMutex_of_find_some h, if_pos hp]
    | none =>
      have hp : p ∉ m.keys := (MutexMap.find_eq_none_iff m p).1 h
      rw [getMutex_of_find_none h, if_neg hp]
      rfl
  · intro q hq
    rw [getMutex_find]
    simp [hq]
  · intro q x h
    exact getMutex_find_preserved p h
  · intro ps q x h
    exact getMutexMapAfter_find_preserved ps h
  · intro ps q hq
    cases h : m.find q with
    | none => exact absurd hq ((MutexMap.find_eq_none_iff m q).1 h)
    | some x =>
      have h2 := getMutexMapAfter_find_preserved ps h
      by_contra hc
      rw [(MutexMap.find_eq_none_iff _ q).2 hc] at h2
      cases h2

/-- C3: in any sequence of `getMutex` calls on a service (whose lock map starts empty), every call
returns a lock, and two calls return the same lock exactly when they were made with the same
partition ID. -/
theorem getMutex_one_lock_per_partition (ps : List partitionID_t) :
    (getMutexCalls MutexMap.empty ps).length = ps.length ∧
    ∀ i j : Fin ps.length,
      ((getMutexCalls MutexMap.empty ps)[i.1]? = (getMutexCalls MutexMap.empty ps)[j.1]? ↔
        ps.get i = ps.get j) := by
  refine ⟨getMutexCalls_length ps _, ?_⟩
  intro i j
  have hwf : (getMutexMapAfter MutexMap.empty ps).WF := getMutexMapAfter_WF ps MutexMap.WF_empty
  have hi := getMutexCalls_find ps MutexMap.empty i
  have hj := getMutexCalls_find ps MutexMap.empty j
  have hlen := getMutexCalls_length ps MutexMap.empty
  have hil : i.1 < (getMutexCalls MutexMap.empty ps).length := by rw [hlen]; exact i.2
  rw [← hi, ← hj]
  constructor
  · intro h
    rw [List.getElem?_eq_getElem hil] at hi
    exact hwf.2 _ _ _ hi (h ▸ hi)
  · intro h
    rw [h]

end odc

namespace odc

/-! ## Properties of the gRPC handlers -/

namespace grpc

/-- C1: every per-partition handler locks the mutex that `getMutex` gives for the partition ID of
its own request before it invokes the engine, and unlocks it only after the reply has been filled
in: the events it adds are lock, engine call for that partition, reply, unlock. -/
theorem handlers_hold_partition_lock {T : TopologyDecls} {σ : Type}
    (E : Engine T SCommonParams σ) (self : CGrpcService σ) :
    (∀ request response, Guarded self (Initialize E self request response).2 request.partitionid) ∧
    (∀ request response, Guarded self (Submit E self request response).2 request.partitionid) ∧
    (∀ request response, Guarded self (Activate E self request response).2 request.partitionid) ∧
    (∀ request response, Guarded self (Run E self request response).2 request.partitionid) ∧
    (∀ request response, Guarded self (Update E self request response).2 request.partitionid) ∧
    (∀ request response, Guarded self (GetState E self request response).2 request.partitionid) ∧
    (∀ request response,
      Guarded self (SetProperties E self request response).2 request.partitionid) ∧
    (∀ request response,
      Guarded self (Configure E self request response).2 request.request.partitionid) ∧
    (∀ request response,
      Guarded self (Start E self request response).2 request.request.partitionid) ∧
    (∀ request response,
      Guarded self (Stop E self request response).2 request.request.partitionid) ∧
    (∀ request response,
      Guarded self (Reset E self request response).2 request.request.partitionid) ∧
    (∀ request response,
      Guarded self (Terminate E self request response).2 request.request.partitionid) ∧
    (∀ request response, Guarded self (Shutdown E self request response).2 request.partitionid) := by
  refine ⟨?_, ?_, ?_, ?_, ?_, ?_, ?_, ?_, ?_, ?_, ?_, ?_, ?_⟩ <;> intro request response
  · exact ⟨EngineCall.execInitialize (commonParams request) ⟨request.sessionid⟩,
      rfl, getMutex_find_self _ _, by
        simp [Initialize, CGrpcService.emit, CGrpcService.exec, CGrpcService.getMutex, commonParams,
          CommonRequest.partitionid]⟩
  · exact ⟨EngineCall.execSubmit (commonParams request) ⟨request.plugin, request.resources⟩,
      rfl, getMutex_find_self _ _, by
        simp [Submit, CGrpcService.emit, CGrpcService.exec, CGrpcService.getMutex, commonParams,
          CommonRequest.partitionid]⟩
  · exact ⟨EngineCall.execActivate (commonParams request) ⟨request.topology, request.content, request.script⟩,
      rfl, getMutex_find_self _ _, by
        simp [Activate, CGrpcService.emit, CGrpcService.exec, CGrpcService.getMutex, commonParams,
          CommonRequest.partitionid]⟩
  · exact ⟨EngineCall.execRun (commonParams request) ⟨""⟩ ⟨request.plugin, request.resources⟩
      ⟨request.topology, request.content, request.script⟩,
      rfl, getMutex_find_self _ _, by
        simp [Run, CGrpcService.emit, CGrpcService.exec, CGrpcService.getMutex, commonParams,
          CommonRequest.partitionid]⟩
  · exact ⟨EngineCall.execUpdate (commonParams request) ⟨request.topology, request.content, request.script⟩,
      rfl, getMutex_find_self _ _, by
        simp [Update, CGrpcService.emit, CGrpcService.exec, CGrpcService.getMutex, commonParams,
          CommonRequest.partitionid]⟩
  · exact ⟨EngineCall.execGetState (commonParams request) ⟨request.path, request.detailed⟩,
      rfl, getMutex_find_self _ _, by
        simp [GetState, CGrpcService.emit, CGrpcService.exec, CGrpcService.getMutex, commonParams,
          CommonRequest.partitionid]⟩
  · exact ⟨EngineCall.execSetProperties (commonParams request)
      ⟨request.properties.foldl (fun props prop => props ++ [(prop.key, prop.value)]) [],
        request.path⟩,
      rfl, getMutex_find_self _ _, by
        simp [SetProperties, CGrpcService.emit, CGrpcService.exec, CGrpcService.getMutex, commonParams,
          CommonRequest.partitionid]⟩
  · exact ⟨EngineCall.execConfigure (commonParams request.request)
      ⟨request.request.path, request.request.detailed⟩,
      rfl, getMutex_find_self _ _, by
        simp [Configure, CGrpcService.emit, CGrpcService.exec, CGrpcService.getMutex, commonParams,
          CommonRequest.partitionid]⟩
  · exact ⟨EngineCall.execStart (commonParams request.request)
      ⟨request.request.path, request.request.detailed⟩,
      rfl, getMutex_find_self _ _, by
        simp [Start, CGrpcService.emit, CGrpcService.exec, CGrpcService.getMutex, commonParams,
          CommonRequest.partitionid]⟩
  · exact ⟨EngineCall.execStop (commonParams request.request)
      ⟨request.request.path, request.request.detailed⟩,
      rfl, getMutex_find_self _ _, by
        simp [Stop, CGrpcService.emit, CGrpcService.exec, CGrpcService.getMutex, commonParams,
          CommonRequest.partitionid]⟩
  · exact ⟨EngineCall.execReset (commonParams request.request)
      ⟨request.request.path, request.request.detailed⟩,
      rfl, getMutex_find_self _ _, by
        simp [Reset, CGrpcService.emit, CGrpcService.exec, CGrpcService.getMutex, commonParams,
          CommonRequest.partitionid]⟩
  · exact ⟨EngineCall.execTerminate (commonParams request.request)
      ⟨request.request.path, request.request.detailed⟩,
      rfl, getMutex_find_self _ _, by
        simp [Terminate, CGrpcService.emit, CGrpcService.exec, CGrpcService.getMutex, commonParams,
          CommonRequest.partitionid]⟩
  · exact ⟨EngineCall.execShutdown (commonParams request),
      rfl, getMutex_find_self _ _, by
        simp [Shutdown, CGrpcService.emit, CGrpcService.exec, CGrpcService.getMutex, commonParams,
          CommonRequest.partitionid]⟩

/-- C4: the `Status` handler leaves the lock map as it found it and locks no partition mutex: the
events it adds are the engine's status query and the reply, whatever the lock map holds. -/
theorem Status_takes_no_partition_lock {T : TopologyDecls} {σ : Type}
    (E : Engine T SCommonParams σ) (self : CGrpcService σ) (request : StatusRequest)
    (response : StatusReply) :
    (Status E self request response).2.m_mutexMap = self.m_mutexMap ∧
    (Status E self request response).2.trace =
      self.trace ++ [Event.execStatus ⟨request.running⟩, Event.reply] ∧
    ∀ mtx, Event.lock mtx ∉ ((Status E self request response).2.trace.drop self.trace.length) := by
  have h : (Status E self request response).2.trace =
      self.trace ++ [Event.execStatus ⟨request.running⟩, Event.reply] := by
    simp [Status, CGrpcService.emit, CGrpcService.execStatus]
  refine ⟨rfl, h, ?_⟩
  intro mtx
  rw [h]
  simp

end grpc

end odc

namespace odc

/-! ## Properties of the replies -/

theorem foldl_append_eq_join (l : List String) :
    ∀ init : String, l.foldl (fun acc s => acc ++ s) init = init ++ String.join l := by
  induction l with
  | nil => intro init; simp [String.join]
  | cons a l ih =>
    intro init
    have h : String.join (a :: l) = a ++ String.join l := by
      show List.foldl (fun acc s => acc ++ s) ("" ++ a) l = _
      rw [ih]; simp
    rw [h, List.foldl_cons, ih, String.append_assoc]

theorem foldl_printDevice (T : TopologyDecls) (l : List (SDeviceStatus T)) :
    ∀ ss : String, l.foldl (cli.printDevice T) ss =
      ss ++ String.join (l.map (fun state =>
        "    \x7b id: " ++ toString state.m_status.taskId ++ "; path: " ++ state.m_path
          ++ "; state: " ++ T.GetStateName state.m_status.state ++ " \x7d\n")) := by
  induction l with
  | nil => intro ss; simp [String.join]
  | cons a l ih =>
    intro ss
    rw [List.foldl_cons, ih, List.map_cons]
    have h : ∀ (x : String) (xs : List String), String.join (x :: xs) = x ++ String.join xs := by
      intro x xs
      show List.foldl (fun acc s => acc ++ s) ("" ++ x) xs = _
      rw [foldl_append_eq_join]; simp
    rw [h]
    simp [cli.printDevice, String.append_assoc]

theorem foldl_addDevice (T : TopologyDecls) (l : List (SDeviceStatus T)) :
    ∀ r : StateReply, (l.foldl (grpc.addDevice T) r).devices =
      r.devices ++ l.map (fun state =>
        ({ path := state.m_path, id := state.m_status.taskId,
           state := T.GetStateName state.m_status.state } : Device)) := by
  induction l with
  | nil => intro r; simp
  | cons a l ih =>
    intro r
    rw [List.foldl_cons, ih]
    simp [grpc.addDevice]

/-- C5: `setupGeneralReply` sets the status to SUCCESS exactly when the outcome's status code is
ok and to ERROR otherwise; it writes `msg` (the outcome's message) in the SUCCESS case only and
the `error` object in the ERROR case only, leaving the other of the two as it was, so a fresh
reply ends up with an error object exactly when its status is ERROR. -/
theorem setupGeneralReply_status (T : TopologyDecls) (r : GeneralReply) (v : SReturnValue T) :
    ((grpc.setupGeneralReply T r v).status = ReplyStatus.SUCCESS ↔ v.m_statusCode = EStatusCode.ok) ∧
    ((grpc.setupGeneralReply T r v).status = ReplyStatus.ERROR ↔ v.m_statusCode ≠ EStatusCode.ok) ∧
    (grpc.setupGeneralReply T r v).msg =
      (if v.m_statusCode = EStatusCode.ok then v.m_msg else r.msg) ∧
    (grpc.setupGeneralReply T r v).error =
      (if v.m_statusCode = EStatusCode.ok then r.error
       else some (grpc.newError v.toSBaseReturnValue)) ∧
    (((grpc.setupGeneralReply T {} v).error).isSome ↔
      (grpc.setupGeneralReply T {} v).status = ReplyStatus.ERROR) ∧
    (((grpc.setupGeneralReply T {} v).error) = none ↔
      (grpc.setupGeneralReply T {} v).status = ReplyStatus.SUCCESS) := by
  by_cases h : v.m_statusCode = EStatusCode.ok <;> simp [grpc.setupGeneralReply, h]

/-- C6: whatever the status code of the outcome, `setupGeneralReply` copies the partition ID, the
session ID, the run number and the execution time into the reply unchanged and sets the reply's
state to the name of the outcome's aggregated state. -/
theorem setupGeneralReply_copies (T : TopologyDecls) (r : GeneralReply) (v : SReturnValue T) :
    (grpc.setupGeneralReply T r v).partitionid = v.m_partitionID ∧
    (grpc.setupGeneralReply T r v).sessionid = v.m_sessionID ∧
    (grpc.setupGeneralReply T r v).runnr = v.m_runNr ∧
    (grpc.setupGeneralReply T r v).exectime = v.m_execTime ∧
    (grpc.setupGeneralReply T r v).state = T.GetAggregatedTopologyStateName v.m_aggregatedState := by
  by_cases h : v.m_statusCode = EStatusCode.ok <;> simp [grpc.setupGeneralReply, h]

/-- C7, as stated, fails: for the outcome with error 42 "Timeout" and detail "no reply" the error
message field of the gRPC reply is "Timeout (no reply)", not the error message "Timeout". -/
theorem newError_msg_is_not_the_bare_message :
    timeoutOutcome.m_statusCode = EStatusCode.error ∧
    (grpc.setupGeneralReply namedStates {} timeoutOutcome).error =
      some { code := 42, msg := "Timeout (no reply)" } ∧
    ((grpc.setupGeneralReply namedStates {} timeoutOutcome).error.map Error.msg) ≠
      some timeoutOutcome.m_error.m_code.message := by
  decide

/-- C7, amended: for every outcome that is not ok, the gRPC reply carries the numeric error code
unchanged, an error text that is the outcome's error message followed by the detail text in
parentheses, and the name of the aggregated state; the CLI reply starts with the error code in
decimal, the same error text and the same state name. -/
theorem error_surfaced_by_both_adapters (T : TopologyDecls) (r : GeneralReply)
    (v : SReturnValue T) (h : v.m_statusCode ≠ EStatusCode.ok) :
    (grpc.setupGeneralReply T r v).error =
      some { code := v.m_error.m_code.value,
             msg := v.m_error.m_code.message ++ " (" ++ v.m_error.m_details ++ ")" } ∧
    (grpc.setupGeneralReply T r v).state = T.GetAggregatedTopologyStateName v.m_aggregatedState ∧
    ∃ rest : String, cli.generalReply T v =
      "  Status code: ERROR\n  Error code: " ++ toString v.m_error.m_code.value
        ++ "\n  Error message: " ++ v.m_error.m_code.message ++ " (" ++ v.m_error.m_details ++ ")\n"
        ++ "  Aggregated state: " ++ T.GetAggregatedTopologyStateName v.m_aggregatedState ++ "\n"
        ++ rest := by
  refine ⟨by simp [grpc.setupGeneralReply, grpc.newError, h],
    by simp [grpc.setupGeneralReply, h], ?_⟩
  cases hd : v.m_details with
  | none =>
    exact ⟨_, by
      simp only [cli.generalReply, h, hd, if_false, showAggregatedState]
      simp only [String.append_assoc, String.empty_append]
      rfl⟩
  | some d =>
    exact ⟨_, by
      simp only [cli.generalReply, h, hd, if_false, showAggregatedState, foldl_printDevice]
      simp only [String.append_assoc, String.empty_append]
      rfl⟩

theorem error_surfaced_by_both_adapters_witness :
    (grpc.setupGeneralReply namedStates {} timeoutOutcome).error =
      some { code := timeoutOutcome.m_error.m_code.value,
             msg := timeoutOutcome.m_error.m_code.message ++ " ("
               ++ timeoutOutcome.m_error.m_details ++ ")" } ∧
    (grpc.setupGeneralReply namedStates {} timeoutOutcome).state =
      namedStates.GetAggregatedTopologyStateName timeoutOutcome.m_aggregatedState ∧
    ∃ rest : String, cli.generalReply namedStates timeoutOutcome =
      "  Status code: ERROR\n  Error code: " ++ toString timeoutOutcome.m_error.m_code.value
        ++ "\n  Error message: " ++ timeoutOutcome.m_error.m_code.message ++ " ("
        ++ timeoutOutcome.m_error.m_details ++ ")\n"
        ++ "  Aggregated state: "
        ++ namedStates.GetAggregatedTopologyStateName timeoutOutcome.m_aggregatedState ++ "\n"
        ++ rest :=
  error_surfaced_by_both_adapters namedStates {} timeoutOutcome (by decide)

end odc

namespace odc

/-- C8: for every outcome that is not ok, the gRPC reply's error msg and the text the CLI prints
after "Error message: " (up to the end of that line) are the same text: the error message, " (",
the detail text unmodified, and ")". -/
theorem error_text_same_in_both_adapters (T : TopologyDecls) (r : GeneralReply)
    (v : SReturnValue T) (h : v.m_statusCode ≠ EStatusCode.ok) :
    ∃ e : Error, (grpc.setupGeneralReply T r v).error = some e ∧
      e.msg = v.m_error.m_code.message ++ " (" ++ v.m_error.m_details ++ ")" ∧
      ∃ rest : String, cli.generalReply T v =
        "  Status code: ERROR\n  Error code: " ++ toString v.m_error.m_code.value ++ "\n"
          ++ "  Error message: " ++ e.msg ++ "\n" ++ rest := by
  refine ⟨grpc.newError v.toSBaseReturnValue, by simp [grpc.setupGeneralReply, h],
    by simp [grpc.newError], ?_⟩
  cases hd : v.m_details with
  | none =>
    exact ⟨_, by
      simp only [cli.generalReply, grpc.newError, h, hd, if_false]
      simp only [String.append_assoc, String.empty_append]
      rfl⟩
  | some d =>
    exact ⟨_, by
      simp only [cli.generalReply, grpc.newError, h, hd, if_false, foldl_printDevice]
      simp only [String.append_assoc, String.empty_append]
      rfl⟩

theorem error_text_same_in_both_adapters_witness :
    ∃ e : Error, (grpc.setupGeneralReply namedStates {} timeoutOutcome).error = some e ∧
      e.msg = timeoutOutcome.m_error.m_code.message ++ " (" ++ timeoutOutcome.m_error.m_details
        ++ ")" ∧
      ∃ rest : String, cli.generalReply namedStates timeoutOutcome =
        "  Status code: ERROR\n  Error code: " ++ toString timeoutOutcome.m_error.m_code.value
          ++ "\n" ++ "  Error message: " ++ e.msg ++ "\n" ++ rest :=
  error_text_same_in_both_adapters namedStates {} timeoutOutcome (by decide)

section
set_option maxRecDepth 100000

/-- C9, as stated, fails: the CLI reply text of the error outcome with run number 7 contains no
"7" at all, and it is the very text of the same outcome with run number 8. -/
theorem generalReply_omits_run_number :
    timeoutOutcome.m_runNr = 7 ∧
    ¬ ((toString timeoutOutcome.m_runNr).data <:+: (cli.generalReply namedStates timeoutOutcome).data) ∧
    cli.generalReply namedStates { timeoutOutcome with m_runNr := 8 } =
      cli.generalReply namedStates timeoutOutcome := by
  decide

end

/-- C9, amended: the CLI reply text consists of the status (SUCCESS with the message, or ERROR
with the error code and the error text), the aggregated state, the partition ID, the session ID,
the device block if any, and the execution time in msec, in this order; the run number is not
part of it: changing the run number of an outcome never changes the text. -/
theorem generalReply_renders (T : TopologyDecls) (v : SReturnValue T) :
    (∃ devices : String, cli.generalReply T v =
      (if v.m_statusCode = EStatusCode.ok then
        "  Status code: SUCCESS\n  Message: " ++ v.m_msg ++ "\n"
      else
        "  Status code: ERROR\n  Error code: " ++ toString v.m_error.m_code.value
          ++ "\n  Error message: " ++ v.m_error.m_code.message ++ " (" ++ v.m_error.m_details
          ++ ")\n")
      ++ "  Aggregated state: " ++ T.GetAggregatedTopologyStateName v.m_aggregatedState ++ "\n"
      ++ "  Partition ID: " ++ v.m_partitionID ++ "\n"
      ++ "  Session ID: " ++ v.m_sessionID ++ "\n"
      ++ devices
      ++ "  Execution time: " ++ toString v.m_execTime ++ " msec\n") ∧
    ∀ n : Nat, cli.generalReply T { v with m_runNr := n } = cli.generalReply T v := by
  refine ⟨?_, fun n => rfl⟩
  cases hd : v.m_details with
  | none =>
    refine ⟨"", ?_⟩
    by_cases h : v.m_statusCode = EStatusCode.ok
    · simp only [cli.generalReply, h, hd, if_true, showAggregatedState]
      simp only [String.append_assoc, String.empty_append]
      rfl
    · simp only [cli.generalReply, h, hd, if_false, showAggregatedState]
      simp only [String.append_assoc, String.empty_append]
      rfl
  | some d =>
    refine ⟨"\n  Devices: \n" ++ String.join (d.m_topologyState.map (fun state =>
        "    \x7b id: " ++ toString state.m_status.taskId ++ "; path: " ++ state.m_path
          ++ "; state: " ++ T.GetStateName state.m_status.state ++ " \x7d\n")) ++ "\n", ?_⟩
    by_cases h : v.m_statusCode = EStatusCode.ok
    · simp only [cli.generalReply, h, hd, if_true, showAggregatedState, foldl_printDevice]
      simp only [String.append_assoc, String.empty_append]
      rfl
    · simp only [cli.generalReply, h, hd, if_false, showAggregatedState, foldl_printDevice]
      simp only [String.append_assoc, String.empty_append]
      rfl

/-- C10: the devices of the gRPC state reply are, appended to those the reply had (none for a
fresh reply), one entry per device of the outcome's topology-state detail, in the same order,
each with that device's path, task id and state name, and none when the outcome has no detail; the
CLI reply text has, between a head that does not depend on the detail and the execution-time line,
no device line when there is no detail and otherwise the "Devices" block with one line per device
in the same order, each with the task id, the path and the state name. -/
theorem device_list_rendered (T : TopologyDecls) (r : StateReply) (v : SReturnValue T) :
    (grpc.setupStateReply T r v).devices =
      r.devices ++
        (match v.m_details with
         | none => []
         | some d => d.m_topologyState.map (fun state =>
            ({ path := state.m_path, id := state.m_status.taskId,
               state := T.GetStateName state.m_status.state } : Device))) ∧
    (grpc.setupStateReply T {} v).devices.length =
      (match v.m_details with
       | none => 0
       | some d => d.m_topologyState.length) ∧
    ∃ head : String, ∀ details : Option (SReturnDetails T),
      cli.generalReply T { v with m_details := details } =
        head ++
        (match details with
         | none => ""
         | some d => "\n  Devices: \n" ++ String.join (d.m_topologyState.map (fun state =>
            "    \x7b id: " ++ toString state.m_status.taskId ++ "; path: " ++ state.m_path
              ++ "; state: " ++ T.GetStateName state.m_status.state ++ " \x7d\n")) ++ "\n")
        ++ "  Execution time: " ++ toString v.m_execTime ++ " msec\n" := by
  have h1 : ∀ r : StateReply, (grpc.setupStateReply T r v).devices =
      r.devices ++
        (match v.m_details with
         | none => []
         | some d => d.m_topologyState.map (fun state =>
            ({ path := state.m_path, id := state.m_status.taskId,
               state := T.GetStateName state.m_status.state } : Device))) := by
    intro r
    cases hd : v.m_details with
    | none => simp [grpc.setupStateReply, hd]
    | some d => simp [grpc.setupStateReply, hd, foldl_addDevice]
  refine ⟨h1 r, ?_, ?_⟩
  · rw [h1]
    cases hd : v.m_details with
    | none => simp
    | some d => simp
  · refine ⟨(if v.m_statusCode = EStatusCode.ok then
        "  Status code: SUCCESS\n  Message: " ++ v.m_msg ++ "\n"
      else
        "  Status code: ERROR\n  Error code: " ++ toString v.m_error.m_code.value
          ++ "\n  Error message: " ++ v.m_error.m_code.message ++ " (" ++ v.m_error.m_details
          ++ ")\n")
      ++ "  Aggregated state: " ++ showAggregatedState T v.m_aggregatedState ++ "\n"
      ++ "  Partition ID: " ++ v.m_partitionID ++ "\n"
      ++ "  Session ID: " ++ v.m_sessionID ++ "\n", ?_⟩
    intro details
    cases details with
    | none =>
      by_cases h : v.m_statusCode = EStatusCode.ok
      · simp only [cli.generalReply, h, if_true]
        simp only [String.append_assoc, String.empty_append]
        rfl
      · simp only [cli.generalReply, h, if_false]
        simp only [String.append_assoc, String.empty_append]
        rfl
    | some d =>
      by_cases h : v.m_statusCode = EStatusCode.ok
      · simp only [cli.generalReply, h, if_true, foldl_printDevice]
        simp only [String.append_assoc, String.empty_append]
        rfl
      · simp only [cli.generalReply, h, if_false, foldl_printDevice]
        simp only [String.append_assoc, String.empty_append]
        rfl

end odc

namespace odc

/-! ## Properties of the status reply, of scaling and of the composite Run -/

theorem foldl_addPartition (T : TopologyDecls) (l : List (SPartitionStatus T)) :
    ∀ r : StatusReply, (l.foldl (grpc.addPartition T) r).partitions =
      r.partitions ++ l.map (fun p =>
        ({ partitionid := p.m_partitionID, sessionid := p.m_sessionID,
           status := if p.m_sessionStatus = ESessionStatus.running then SessionStatus.RUNNING
                     else SessionStatus.STOPPED,
           state := T.GetAggregatedTopologyStateName p.m_aggregatedState } : PartitionStatus)) := by
  induction l with
  | nil => intro r; simp
  | cons a l ih =>
    intro r
    rw [List.foldl_cons, ih]
    simp [grpc.addPartition]

/-- C11: the partitions of the status reply are, appended to those the reply had (none for a
fresh reply), one entry per partition of the status outcome, in the same order, each with that
partition's ID and session ID unchanged, the name of its aggregated state, and a status that is
RUNNING exactly when the session status is running and STOPPED otherwise. -/
theorem setupStatusReply_partitions (T : TopologyDecls) (r : StatusReply)
    (v : SStatusReturnValue T) :
    (grpc.setupStatusReply T r v).partitions =
      r.partitions ++ v.m_partitions.map (fun p =>
        ({ partitionid := p.m_partitionID, sessionid := p.m_sessionID,
           status := if p.m_sessionStatus = ESessionStatus.running then SessionStatus.RUNNING
                     else SessionStatus.STOPPED,
           state := T.GetAggregatedTopologyStateName p.m_aggregatedState } : PartitionStatus)) ∧
    (grpc.setupStatusReply T {} v).partitions.length = v.m_partitions.length ∧
    (∀ (i : Fin v.m_partitions.length) (e : PartitionStatus),
      (grpc.setupStatusReply T {} v).partitions[i.1]? = some e →
        e.partitionid = (v.m_partitions.get i).m_partitionID ∧
        e.sessionid = (v.m_partitions.get i).m_sessionID ∧
        e.state = T.GetAggregatedTopologyStateName (v.m_partitions.get i).m_aggregatedState ∧
        (e.status = SessionStatus.RUNNING ↔
          (v.m_partitions.get i).m_sessionStatus = ESessionStatus.running) ∧
        (e.status = SessionStatus.STOPPED ↔
          (v.m_partitions.get i).m_sessionStatus ≠ ESessionStatus.running)) := by
  have h : ∀ r : StatusReply, (grpc.setupStatusReply T r v).partitions =
      r.partitions ++ v.m_partitions.map (fun p =>
        ({ partitionid := p.m_partitionID, sessionid := p.m_sessionID,
           status := if p.m_sessionStatus = ESessionStatus.running then SessionStatus.RUNNING
                     else SessionStatus.STOPPED,
           state := T.GetAggregatedTopologyStateName p.m_aggregatedState } : PartitionStatus)) := by
    intro r
    by_cases hs : v.m_statusCode = EStatusCode.ok <;>
      simp [grpc.setupStatusReply, hs, foldl_addPartition]
  refine ⟨h r, by rw [h]; simp, ?_⟩
  intro i e he
  rw [h] at he
  simp only [List.nil_append, List.getElem?_map, List.getElem?_eq_getElem i.2,
    Option.map_some', Option.some.injEq] at he
  subst he
  refine ⟨rfl, rfl, rfl, ?_, ?_⟩
  · by_cases hr : v.m_partitions[i.1].m_sessionStatus = ESessionStatus.running <;> simp [hr]
  · by_cases hr : v.m_partitions[i.1].m_sessionStatus = ESessionStatus.running <;> simp [hr]

/-- C12: for every partition ID and update parameters, `requestUpscale` and `requestDownscale`
of the CLI service are the same operation: both issue the single engine call `execUpdate` with
that partition ID and those parameters, and both return the reply text of the outcome of that
call, leaving the service in the same state. -/
theorem requestUpscale_eq_requestDownscale {T : TopologyDecls} {σ : Type}
    (E : Engine T partitionID_t σ) (self : cli.CCliControlService σ)
    (_partitionID : partitionID_t) (_params : SUpdateParams) :
    cli.requestUpscale E self _partitionID _params =
      cli.requestDownscale E self _partitionID _params ∧
    (cli.requestUpscale E self _partitionID _params).2.calls =
      self.calls ++ [EngineCall.execUpdate _partitionID _params] ∧
    (cli.requestDownscale E self _partitionID _params).2.calls =
      self.calls ++ [EngineCall.execUpdate _partitionID _params] ∧
    (cli.requestUpscale E self _partitionID _params).1 =
      cli.generalReply T (E.exec self.m_service (EngineCall.execUpdate _partitionID _params)).1 ∧
    (cli.requestDownscale E self _partitionID _params).1 =
      cli.generalReply T (E.exec self.m_service (EngineCall.execUpdate _partitionID _params)).1 :=
  ⟨rfl, rfl, rfl, rfl, rfl⟩

/-- C18: for every gRPC Run request the engine is called once, with `execRun`, an empty session
ID as initialize parameter whatever the request holds, the request's plugin and resources as
submit parameters and its topology, content and script as activate parameters; the reply is
filled from the outcome of that call. -/
theorem Run_initializes_with_empty_session_id {T : TopologyDecls} {σ : Type}
    (E : Engine T SCommonParams σ) (self : grpc.CGrpcService σ) (request : RunRequest)
    (response : GeneralReply) :
    (grpc.Run E self request response).2.trace =
      self.trace ++
        [grpc.Event.lock (getMutex self.m_mutexMap request.partitionid).1,
         grpc.Event.exec (EngineCall.execRun
           ⟨request.partitionid, request.runnr, request.timeout⟩
           ⟨""⟩ ⟨request.plugin, request.resources⟩
           ⟨request.topology, request.content, request.script⟩),
         grpc.Event.reply,
         grpc.Event.unlock (getMutex self.m_mutexMap request.partitionid).1] ∧
    (grpc.Run E self request response).1 =
      grpc.setupGeneralReply T response
        (E.exec self.m_service (EngineCall.execRun
           ⟨request.partitionid, request.runnr, request.timeout⟩
           ⟨""⟩ ⟨request.plugin, request.resources⟩
           ⟨request.topology, request.content, request.script⟩)).1 := by
  refine ⟨?_, rfl⟩
  simp [grpc.Run, grpc.CGrpcService.emit, grpc.CGrpcService.exec, grpc.CGrpcService.getMutex,
    grpc.commonParams, CommonRequest.partitionid, CommonRequest.runnr, CommonRequest.timeout]

end odc

namespace odc

/-! ## Properties of the command loop -/

namespace core

theorem processRequest_quit {ω : Type} (O : OwnerT ω) (self : CCliServiceHelper) (s : Process ω)
    (v : partitionID_t) :
    processRequest O self s v ".quit" = Step.exited (s.emit (Event.call v ".quit")) := by
  simp [processRequest]

/-- What `processRequest` does for a command line other than ".quit": it looks the command up
among the documented ones, makes the request found, if any, and prints its reply if not empty. -/
theorem processRequest_eq {ω : Type} (O : OwnerT ω) (self : CCliServiceHelper) (s : Process ω)
    (v : partitionID_t) (_cmd : String) (h : _cmd ≠ ".quit") :
    processRequest O self s v _cmd = Step.running
      (match (documentedRequests self v
          (self.stringToDeviceParams (parameterToken _cmd))).lookup (commandToken _cmd) with
       | none => s.emit (Event.call v _cmd)
       | some r =>
         if ((s.emit (Event.call v _cmd)).request O r).1 ≠ "" then
           ((s.emit (Event.call v _cmd)).request O r).2.emit
             (Event.reply ((s.emit (Event.call v _cmd)).request O r).1)
         else ((s.emit (Event.call v _cmd)).request O r).2) := by
  have key : ∀ c p : String,
      (let replyString : String := ""
       let (replyString, s) :=
          if c = ".init" then
            (s.emit (Event.call v _cmd)).request O (Request.requestInitialize v self.m_initializeParams)
          else if c = ".submit" then
            (s.emit (Event.call v _cmd)).request O (Request.requestSubmit v self.m_submitParams)
          else if c = ".activate" then
            (s.emit (Event.call v _cmd)).request O (Request.requestActivate v self.m_activateParams)
          else if c = ".run" then
            (s.emit (Event.call v _cmd)).request O (Request.requestRun v self.m_initializeParams
              self.m_submitParams self.m_activateParams)
          else if c = ".upscale" then
            (s.emit (Event.call v _cmd)).request O (Request.requestUpscale v self.m_upscaleParams)
          else if c = ".downscale" then
            (s.emit (Event.call v _cmd)).request O (Request.requestDownscale v self.m_downscaleParams)
          else if c = ".config" then
            (s.emit (Event.call v _cmd)).request O
              (Request.requestConfigure v (self.stringToDeviceParams p))
          else if c = ".state" then
            (s.emit (Event.call v _cmd)).request O
              (Request.requestGetState v (self.stringToDeviceParams p))
          else if c = ".prop" then
            (s.emit (Event.call v _cmd)).request O
              (Request.requestSetProperties v self.m_setPropertiesParams)
          else if c = ".start" then
            (s.emit (Event.call v _cmd)).request O
              (Request.requestStart v (self.stringToDeviceParams p))
          else if c = ".stop" then
            (s.emit (Event.call v _cmd)).request O
              (Request.requestStop v (self.stringToDeviceParams p))
          else if c = ".reset" then
            (s.emit (Event.call v _cmd)).request O
              (Request.requestReset v (self.stringToDeviceParams p))
          else if c = ".term" then
            (s.emit (Event.call v _cmd)).request O
              (Request.requestTerminate v (self.stringToDeviceParams p))
          else if c = ".down" then
            (s.emit (Event.call v _cmd)).request O (Request.requestShutdown v)
          else
            (replyString, s.emit (Event.call v _cmd))
       let s := if replyString ≠ "" then s.emit (Event.reply replyString) else s
       Step.running s) =
      Step.running
        (match (documentedRequests self v (self.stringToDeviceParams p)).lookup c with
         | none => s.emit (Event.call v _cmd)
         | some r =>
           if ((s.emit (Event.call v _cmd)).request O r).1 ≠ "" then
             ((s.emit (Event.call v _cmd)).request O r).2.emit
               (Event.reply ((s.emit (Event.call v _cmd)).request O r).1)
           else ((s.emit (Event.call v _cmd)).request O r).2) := by
    intro c p
    simp only [documentedRequests]
    by_cases h0 : c = ".init"
    · subst h0; simp [List.lookup]
    rw [if_neg h0]
    have b0 : (c == ".init") = false := by simpa using h0
    by_cases h1 : c = ".submit"
    · subst h1; simp [List.lookup]
    rw [if_neg h1]
    have b1 : (c == ".submit") = false := by simpa using h1
    by_cases h2 : c = ".activate"
    · subst h2; simp [List.lookup]
    rw [if_neg h2]
    have b2 : (c == ".activate") = false := by simpa using h2
    by_cases h3 : c = ".run"
    · subst h3; simp [List.lookup]
    rw [if_neg h3]
    have b3 : (c == ".run") = false := by simpa using h3
    by_cases h4 : c = ".upscale"
    · subst h4; simp [List.lookup]
    rw [if_neg h4]
    have b4 : (c == ".upscale") = false := by simpa using h4
    by_cases h5 : c = ".downscale"
    · subst h5; simp [List.lookup]
    rw [if_neg h5]
    have b5 : (c == ".downscale") = false := by simpa using h5
    by_cases h6 : c = ".config"
    · subst h6; simp [List.lookup]
    rw [if_neg h6]
    have b6 : (c == ".config") = false := by simpa using h6
    by_cases h7 : c = ".state"
    · subst h7; simp [List.lookup]
    rw [if_neg h7]
    have b7 : (c == ".state") = false := by simpa using h7
    by_cases h8 : c = ".prop"
    · subst h8; simp [List.lookup]
    rw [if_neg h8]
    have b8 : (c == ".prop") = false := by simpa using h8
    by_cases h9 : c = ".start"
    · subst h9; simp [List.lookup]
    rw [if_neg h9]
    have b9 : (c == ".start") = false := by simpa using h9
    by_cases h10 : c = ".stop"
    · subst h10; simp [List.lookup]
    rw [if_neg h10]
    have b10 : (c == ".stop") = false := by simpa using h10
    by_cases h11 : c = ".reset"
    · subst h11; simp [List.lookup]
    rw [if_neg h11]
    have b11 : (c == ".reset") = false := by simpa using h11
    by_cases h12 : c = ".term"
    · subst h12; simp [List.lookup]
    rw [if_neg h12]
    have b12 : (c == ".term") = false := by simpa using h12
    by_cases h13 : c = ".down"
    · subst h13; simp [List.lookup]
    rw [if_neg h13]
    have b13 : (c == ".down") = false := by simpa using h13
    simp [List.lookup, b0, b1, b2, b3, b4, b5, b6, b7, b8, b9, b10, b11, b12, b13]
  unfold processRequest
  simp only [h, if_false]
  cases hs : split _cmd isSeparator with
  | nil => simpa [commandToken, parameterToken, hs] using key "" ""
  | cons a l =>
    cases l with
    | nil => simpa [commandToken, parameterToken, hs] using key a ""
    | cons b l => simpa [commandToken, parameterToken, hs] using key a b

theorem lookup_eq_none_of_forall_ne (l : List (String × Request)) (c : String)
    (h : ∀ cr ∈ l, c ≠ cr.1) : l.lookup c = none := by
  induction l with
  | nil => rfl
  | cons a l ih =>
    obtain ⟨k, r⟩ := a
    have hk : (c == k) = false := by simpa using h (k, r) (List.mem_cons_self _ _)
    simp only [List.lookup, hk]
    exact ih (fun cr hcr => h cr (List.mem_cons_of_mem _ hcr))

theorem mem_of_lookup_eq_some (l : List (String × Request)) (c : String) (r : Request)
    (h : l.lookup c = some r) : (c, r) ∈ l := by
  induction l with
  | nil => cases h
  | cons a l ih =>
    obtain ⟨k, x⟩ := a
    by_cases hk : c = k
    · subst hk
      simp only [List.lookup, beq_self_eq_true, Option.some.injEq] at h
      subst h
      exact List.mem_cons_self _ _
    · have hb : (c == k) = false := by simpa using hk
      simp only [List.lookup, hb] at h
      exact List.mem_cons_of_mem _ (ih h)

theorem documentedRequests_lookup (self : CCliServiceHelper) (v : partitionID_t)
    (d : SDeviceParams) (cr : String × Request) (hcr : cr ∈ documentedRequests self v d) :
    (documentedRequests self v d).lookup cr.1 = some cr.2 := by
  simp only [documentedRequests, List.mem_cons, List.mem_singleton, List.not_mem_nil,
    or_false] at hcr
  rcases hcr with h | h | h | h | h | h | h | h | h | h | h | h | h | h <;>
    (subst h; simp [documentedRequests, List.lookup])

theorem deviceRequests_sub (v : partitionID_t) (d : SDeviceParams) (self : CCliServiceHelper)
    (cr : String × Request) (hcr : cr ∈ deviceRequests v d) :
    cr ∈ documentedRequests self v d := by
  simp only [deviceRequests, List.mem_cons, List.mem_singleton, List.not_mem_nil,
    or_false] at hcr
  rcases hcr with h | h | h | h | h | h <;> (subst h; simp [documentedRequests])

theorem commandToken_quit : commandToken ".quit" = ".quit" := by decide

/-- The events `processRequest` adds for a command line other than ".quit": the call itself, then
the request found for the command among the documented ones, if any, and its reply if not empty;
the program goes on. -/
theorem processRequest_events {ω : Type} (O : OwnerT ω) (self : CCliServiceHelper)
    (s : Process ω) (v : partitionID_t) (_cmd : String) (h : _cmd ≠ ".quit") :
    ∃ (s' : Process ω) (rest : List Event),
      processRequest O self s v _cmd = Step.running s' ∧
      s'.trace = s.trace ++ Event.call v _cmd :: rest ∧
      callsOf rest = [] ∧
      requestsOf rest = ((documentedRequests self v
        (self.stringToDeviceParams (parameterToken _cmd))).lookup (commandToken _cmd)).toList ∧
      ((documentedRequests self v
        (self.stringToDeviceParams (parameterToken _cmd))).lookup (commandToken _cmd) = none →
          rest = []) := by
  rw [processRequest_eq O self s v _cmd h]
  cases hl : (documentedRequests self v
      (self.stringToDeviceParams (parameterToken _cmd))).lookup (commandToken _cmd) with
  | none =>
    exact ⟨_, [], rfl, by simp [Process.emit], rfl, rfl, fun _ => rfl⟩
  | some r =>
    by_cases hr : ((s.emit (Event.call v _cmd)).request O r).1 ≠ ""
    · refine ⟨_, [Event.request r, Event.reply ((s.emit (Event.call v _cmd)).request O r).1],
        rfl, ?_, rfl, rfl, fun hn => by cases hn⟩
      have hr' : (O.request s.owner r).1 ≠ "" := hr
      simp [hr', Process.emit, Process.request]
    · refine ⟨_, [Event.request r], rfl, ?_, rfl, rfl, fun hn => by cases hn⟩
      have hr' : (O.request s.owner r).1 = "" := not_not.mp hr
      simp [hr', Process.emit, Process.request]

end core

/-- C13, as stated, fails: with the timeout set to 5 and with the timeout set to 10 the command
".init" for partition "a" forwards one and the same request, which holds the partition ID and the
initialize parameters and nothing else; so no reading of the forwarded requests gives back the
timeout that was configured. -/
theorem processRequest_does_not_forward_timeout :
    core.requestsOf (core.processRequest sampleOwner (sampleHelper.setTimeout 5) sampleStart
      "a" ".init").state.trace = [core.Request.requestInitialize "a" ⟨"sid"⟩] ∧
    core.requestsOf (core.processRequest sampleOwner (sampleHelper.setTimeout 10) sampleStart
      "a" ".init").state.trace = [core.Request.requestInitialize "a" ⟨"sid"⟩] ∧
    ¬ ∃ timeoutOf : core.Request → Nat, ∀ t : Nat,
        ∀ r ∈ core.requestsOf (core.processRequest sampleOwner (sampleHelper.setTimeout t)
          sampleStart "a" ".init").state.trace, timeoutOf r = t := by
  refine ⟨by decide, by decide, ?_⟩
  rintro ⟨f, hf⟩
  have h5 := hf 5 (core.Request.requestInitialize "a" ⟨"sid"⟩) (by decide)
  have h10 := hf 10 (core.Request.requestInitialize "a" ⟨"sid"⟩) (by decide)
  omega

/-- C13, amended: every request that `processRequest` forwards is the one documented for the
command of the line: it carries the partition ID `processRequest` was called with and the stored
parameters of its kind, and for a documented command exactly that request is forwarded. The
timeout configured through `setTimeout` is stored and never forwarded: setting it changes neither
the documented requests nor anything of what `processRequest` does. -/
theorem processRequest_forwards_partition_id {ω : Type} (O : core.OwnerT ω)
    (self : core.CCliServiceHelper) (s : core.Process ω) (v : partitionID_t) (_cmd : String) :
    (∀ t : Nat, (self.setTimeout t).m_timeout = t ∧
      (∀ d, core.documentedRequests (self.setTimeout t) v d = core.documentedRequests self v d) ∧
      core.processRequest O (self.setTimeout t) s v _cmd = core.processRequest O self s v _cmd) ∧
    ∃ rest : List core.Event,
      (core.processRequest O self s v _cmd).state.trace = s.trace ++ core.Event.call v _cmd :: rest ∧
      (∀ r ∈ core.requestsOf rest,
        r.partitionID = v ∧
        (core.commandToken _cmd, r) ∈ core.documentedRequests self v
          (self.stringToDeviceParams (core.parameterToken _cmd))) ∧
      (∀ cr ∈ core.documentedRequests self v
          (self.stringToDeviceParams (core.parameterToken _cmd)),
        core.commandToken _cmd = cr.1 → core.requestsOf rest = [cr.2]) ∧
      core.documentedRequests self v (self.stringToDeviceParams (core.parameterToken _cmd)) =
        [(".init", core.Request.requestInitialize v self.m_initializeParams),
         (".submit", core.Request.requestSubmit v self.m_submitParams),
         (".activate", core.Request.requestActivate v self.m_activateParams),
         (".run", core.Request.requestRun v self.m_initializeParams self.m_submitParams
            self.m_activateParams),
         (".upscale", core.Request.requestUpscale v self.m_upscaleParams),
         (".downscale", core.Request.requestDownscale v self.m_downscaleParams),
         (".config", core.Request.requestConfigure v
            (self.stringToDeviceParams (core.parameterToken _cmd))),
         (".state", core.Request.requestGetState v
            (self.stringToDeviceParams (core.parameterToken _cmd))),
         (".prop", core.Request.requestSetProperties v self.m_setPropertiesParams),
         (".start", core.Request.requestStart v
            (self.stringToDeviceParams (core.parameterToken _cmd))),
         (".stop", core.Request.requestStop v
            (self.stringToDeviceParams (core.parameterToken _cmd))),
         (".reset", core.Request.requestReset v
            (self.stringToDeviceParams (core.parameterToken _cmd))),
         (".term", core.Request.requestTerminate v
            (self.stringToDeviceParams (core.parameterToken _cmd))),
         (".down", core.Request.requestShutdown v)] := by
  refine ⟨fun t => ⟨rfl, fun d => rfl, rfl⟩, ?_⟩
  by_cases h : _cmd = ".quit"
  · subst h
    refine ⟨[], ?_, by simp [core.requestsOf], ?_, rfl⟩
    · rw [core.processRequest_quit]
      rfl
    · intro cr hcr hc
      exfalso
      rw [core.commandToken_quit] at hc
      simp only [core.documentedRequests, List.mem_cons, List.mem_singleton, List.not_mem_nil,
        or_false] at hcr
      rcases hcr with h | h | h | h | h | h | h | h | h | h | h | h | h | h <;>
        (subst h; simp at hc)
  · obtain ⟨s', rest, he, ht, _, hr, _⟩ := core.processRequest_events O self s v _cmd h
    refine ⟨rest, by rw [he]; exact ht, ?_, ?_, rfl⟩
    · intro r hmem
      rw [hr] at hmem
      cases hl : (core.documentedRequests self v
          (self.stringToDeviceParams (core.parameterToken _cmd))).lookup
          (core.commandToken _cmd) with
      | none => rw [hl] at hmem; cases hmem
      | some r' =>
        rw [hl] at hmem
        simp only [Option.toList, List.mem_singleton] at hmem
        subst hmem
        refine ⟨?_, core.mem_of_lookup_eq_some _ _ _ hl⟩
        have hk := hl
        simp only [core.documentedRequests, List.lookup] at hk
        repeat' split at hk
        all_goals first
          | (cases hk; rfl)
          | cases hk
    · intro cr hcr hc
      rw [hr, hc, core.documentedRequests_lookup self v _ cr hcr]
      rfl

end odc

namespace odc

namespace core

/-! ### The tokens of a command line -/

theorem splitChars_eq (isSep : Char → Bool) (l : List Char) :
    splitChars isSep l =
      l.takeWhile (fun c => !isSep c) ::
        (match l.dropWhile (fun c => !isSep c) with
         | [] => []
         | _ :: rest => splitChars isSep rest) := by
  induction l with
  | nil => simp [splitChars]
  | cons c cs ih =>
    by_cases hc : isSep c = true
    · simp [splitChars, hc, List.takeWhile, List.dropWhile]
    · have hc' : isSep c = false := by simpa using hc
      rw [splitChars]
      simp only [hc', Bool.false_eq_true, if_false]
      rw [ih]
      simp [List.takeWhile, List.dropWhile, hc']

theorem commandToken_eq (_cmd : String) :
    commandToken _cmd = String.mk (_cmd.data.takeWhile (fun c => !isSeparator c)) := by
  unfold commandToken split
  rw [splitChars_eq]
  rfl

theorem parameterToken_eq (_cmd : String) :
    parameterToken _cmd =
      String.mk (((_cmd.data.dropWhile (fun c => !isSeparator c)).drop 1).takeWhile
        (fun c => !isSeparator c)) := by
  unfold parameterToken split
  rw [splitChars_eq]
  cases hd : _cmd.data.dropWhile (fun c => !isSeparator c) with
  | nil => simp
  | cons a rest =>
    simp only [List.map_cons, List.drop_succ_cons, List.drop_zero]
    rw [splitChars_eq]
    rfl

theorem takeWhile_append_separator (l₁ l₂ : List Char) (a : Char)
    (h₁ : ∀ c ∈ l₁, isSeparator c = false) (ha : isSeparator a = true) :
    (l₁ ++ a :: l₂).takeWhile (fun c => !isSeparator c) = l₁ ∧
    (l₁ ++ a :: l₂).dropWhile (fun c => !isSeparator c) = a :: l₂ := by
  induction l₁ with
  | nil => simp [List.takeWhile, List.dropWhile, ha]
  | cons c cs ih =>
    have hc : isSeparator c = false := h₁ c (List.mem_cons_self _ _)
    have := ih (fun x hx => h₁ x (List.mem_cons_of_mem _ hx))
    simp [List.takeWhile, List.dropWhile, hc, this]

/-- A word without separators, followed by two separators and anything: the command is the word
and the parameter is empty. -/
theorem tokens_of_two_separators (w : String) (hw : ∀ c ∈ w.data, isSeparator c = false)
    (a b : Char) (ha : isSeparator a = true) (hb : isSeparator b = true) (rest : String) :
    commandToken (w ++ String.mk [a, b] ++ rest) = w ∧
    parameterToken (w ++ String.mk [a, b] ++ rest) = "" := by
  have hd : (w ++ String.mk [a, b] ++ rest).data = w.data ++ a :: (b :: rest.data) := by
    simp [String.data_append]
  obtain ⟨h1, h2⟩ := takeWhile_append_separator w.data (b :: rest.data) a hw ha
  constructor
  · rw [commandToken_eq, hd, h1]
  · rw [parameterToken_eq, hd, h2]
    simp [List.takeWhile, hb]

theorem ne_quit_of_commandToken {_cmd : String} (h : commandToken _cmd ≠ ".quit") :
    _cmd ≠ ".quit" := by
  intro hq
  apply h
  rw [hq]
  exact commandToken_quit

end core

/-- C15: for every partition ID and every command line other than ".quit", `processRequest`
returns to its caller having made at most one request: when the first token is one of the
fourteen documented commands it makes exactly the request documented for it, with that partition
ID and the stored parameters of that kind, and for any other first token it makes no request and
prints no reply. -/
theorem processRequest_makes_documented_request {ω : Type} (O : core.OwnerT ω)
    (self : core.CCliServiceHelper) (s : core.Process ω) (v : partitionID_t) (_cmd : String)
    (h : _cmd ≠ ".quit") :
    ∃ (s' : core.Process ω) (rest : List core.Event),
      core.processRequest O self s v _cmd = core.Step.running s' ∧
      s'.trace = s.trace ++ core.Event.call v _cmd :: rest ∧
      (core.requestsOf rest).length ≤ 1 ∧
      (∀ cr ∈ core.documentedRequests self v
          (self.stringToDeviceParams (core.parameterToken _cmd)),
        core.commandToken _cmd = cr.1 → core.requestsOf rest = [cr.2]) ∧
      ((∀ cr ∈ core.documentedRequests self v
          (self.stringToDeviceParams (core.parameterToken _cmd)),
        core.commandToken _cmd ≠ cr.1) → rest = []) ∧
      (core.documentedRequests self v
          (self.stringToDeviceParams (core.parameterToken _cmd))).map Prod.fst =
        [".init", ".submit", ".activate", ".run", ".upscale", ".downscale", ".config", ".state",
         ".prop", ".start", ".stop", ".reset", ".term", ".down"] := by
  obtain ⟨s', rest, he, ht, _, hr, hn⟩ := core.processRequest_events O self s v _cmd h
  refine ⟨s', rest, he, ht, ?_, ?_, ?_, rfl⟩
  · rw [hr]
    cases (core.documentedRequests self v
      (self.stringToDeviceParams (core.parameterToken _cmd))).lookup (core.commandToken _cmd) <;>
      simp [Option.toList]
  · intro cr hcr hc
    rw [hr, hc, core.documentedRequests_lookup self v _ cr hcr]
    rfl
  · intro hall
    exact hn (core.lookup_eq_none_of_forall_ne _ _ hall)

theorem processRequest_makes_documented_request_witness :
    ∃ (s' : core.Process Unit) (rest : List core.Event),
      core.processRequest sampleOwner sampleHelper sampleStart "a" ".init" =
        core.Step.running s' ∧
      s'.trace = sampleStart.trace ++ core.Event.call "a" ".init" :: rest ∧
      (core.requestsOf rest).length ≤ 1 ∧
      (∀ cr ∈ core.documentedRequests sampleHelper "a"
          (sampleHelper.stringToDeviceParams (core.parameterToken ".init")),
        core.commandToken ".init" = cr.1 → core.requestsOf rest = [cr.2]) ∧
      ((∀ cr ∈ core.documentedRequests sampleHelper "a"
          (sampleHelper.stringToDeviceParams (core.parameterToken ".init")),
        core.commandToken ".init" ≠ cr.1) → rest = []) ∧
      (core.documentedRequests sampleHelper "a"
          (sampleHelper.stringToDeviceParams (core.parameterToken ".init"))).map Prod.fst =
        [".init", ".submit", ".activate", ".run", ".upscale", ".downscale", ".config", ".state",
         ".prop", ".start", ".stop", ".reset", ".term", ".down"] :=
  processRequest_makes_documented_request sampleOwner sampleHelper sampleStart "a" ".init"
    (by decide)

/-- C16: the word "reco" selects the reco parameters, "qc" the QC parameters, and every other
word, "all" and the empty word included, the all-devices parameters; and each of the device
commands (.state, .config, .start, .stop, .reset, .term) makes its request with the parameters
that the second token of the command line selects in this way. -/
theorem device_command_parameter_selection {ω : Type} (O : core.OwnerT ω)
    (self : core.CCliServiceHelper) (s : core.Process ω) (v : partitionID_t) (_cmd : String) :
    self.stringToDeviceParams "reco" = self.m_recoDeviceParams ∧
    self.stringToDeviceParams "qc" = self.m_qcDeviceParams ∧
    self.stringToDeviceParams "all" = self.m_allDeviceParams ∧
    self.stringToDeviceParams "" = self.m_allDeviceParams ∧
    (∀ w : String, w ≠ "reco" → w ≠ "qc" → self.stringToDeviceParams w = self.m_allDeviceParams) ∧
    (∀ cr ∈ core.deviceRequests v (self.stringToDeviceParams (core.parameterToken _cmd)),
      core.commandToken _cmd = cr.1 →
        ∃ (s' : core.Process ω) (rest : List core.Event),
          core.processRequest O self s v _cmd = core.Step.running s' ∧
          s'.trace = s.trace ++ core.Event.call v _cmd :: rest ∧
          core.requestsOf rest = [cr.2]) ∧
    (core.deviceRequests v (self.stringToDeviceParams (core.parameterToken _cmd))).map Prod.fst =
      [".state", ".config", ".start", ".stop", ".reset", ".term"] := by
  refine ⟨by simp [core.CCliServiceHelper.stringToDeviceParams],
    by simp [core.CCliServiceHelper.stringToDeviceParams],
    by simp [core.CCliServiceHelper.stringToDeviceParams],
    by simp [core.CCliServiceHelper.stringToDeviceParams],
    fun w h1 h2 => by simp [core.CCliServiceHelper.stringToDeviceParams, h1, h2], ?_, rfl⟩
  intro cr hcr hc
  have hq : _cmd ≠ ".quit" := by
    apply core.ne_quit_of_commandToken
    rw [hc]
    simp only [core.deviceRequests, List.mem_cons, List.mem_singleton, List.not_mem_nil,
      or_false] at hcr
    rcases hcr with h | h | h | h | h | h <;> (subst h; simp)
  obtain ⟨s', rest, he, ht, _, hr, _⟩ := core.processRequest_events O self s v _cmd hq
  refine ⟨s', rest, he, ht, ?_⟩
  rw [hr, hc, core.documentedRequests_lookup self v _ cr (core.deviceRequests_sub v _ self cr hcr)]
  rfl

end odc

namespace odc

namespace core

theorem splitChars_length (isSep : Char → Bool) (l : List Char) :
    (splitChars isSep l).length = (l.filter isSep).length + 1 := by
  induction l with
  | nil => rfl
  | cons c cs ih =>
    by_cases hc : isSep c = true
    · simp [splitChars, hc, ih]
    · have hc' : isSep c = false := by simpa using hc
      rw [splitChars_eq] at ih
      rw [splitChars, splitChars_eq]
      simp only [hc', Bool.false_eq_true, if_false]
      simpa [List.filter, hc'] using ih

end core

/-- C19: `processRequest` cuts the command line at every space or tab, adjacent ones included (a
line with `n` separators has `n + 1` tokens); the command is the text before the first separator
and the parameter the text between the first and the second. So a line that starts with a space
or a tab has an empty command and leads to no request and no reply, and a device command followed
by two separators selects the all-devices parameters whatever comes next, "reco" and "qc"
included, as for ".state  reco". -/
theorem processRequest_does_not_merge_separators {ω : Type} (O : core.OwnerT ω)
    (self : core.CCliServiceHelper) (s : core.Process ω) (v : partitionID_t) :
    (∀ _cmd : String,
      (core.split _cmd core.isSeparator).length =
        (_cmd.data.filter core.isSeparator).length + 1 ∧
      core.commandToken _cmd =
        String.mk (_cmd.data.takeWhile (fun c => !core.isSeparator c)) ∧
      core.parameterToken _cmd =
        String.mk (((_cmd.data.dropWhile (fun c => !core.isSeparator c)).drop 1).takeWhile
          (fun c => !core.isSeparator c))) ∧
    (∀ (_cmd : String) (c : Char), _cmd.data.head? = some c → core.isSeparator c = true →
      core.commandToken _cmd = "" ∧
      core.processRequest O self s v _cmd =
        core.Step.running (s.emit (core.Event.call v _cmd))) ∧
    (∀ cr ∈ core.deviceRequests v self.m_allDeviceParams,
      ∀ (a b : Char) (rest : String), core.isSeparator a = true → core.isSeparator b = true →
        ∃ (s' : core.Process ω) (evs : List core.Event),
          core.processRequest O self s v (cr.1 ++ String.mk [a, b] ++ rest) =
            core.Step.running s' ∧
          s'.trace = s.trace ++ core.Event.call v (cr.1 ++ String.mk [a, b] ++ rest) :: evs ∧
          core.requestsOf evs = [cr.2]) ∧
    (∃ (s' : core.Process ω) (evs : List core.Event),
      core.processRequest O self s v ".state  reco" = core.Step.running s' ∧
      s'.trace = s.trace ++ core.Event.call v ".state  reco" :: evs ∧
      core.requestsOf evs = [core.Request.requestGetState v self.m_allDeviceParams]) ∧
    core.split ".state  reco" core.isSeparator = [".state", "", "reco"] ∧
    core.isSeparator ' ' = true ∧ core.isSeparator '\t' = true := by
  have h3 : ∀ cr ∈ core.deviceRequests v self.m_allDeviceParams,
      ∀ (a b : Char) (rest : String), core.isSeparator a = true → core.isSeparator b = true →
        ∃ (s' : core.Process ω) (evs : List core.Event),
          core.processRequest O self s v (cr.1 ++ String.mk [a, b] ++ rest) =
            core.Step.running s' ∧
          s'.trace = s.trace ++ core.Event.call v (cr.1 ++ String.mk [a, b] ++ rest) :: evs ∧
          core.requestsOf evs = [cr.2] := by
    intro cr hcr a b rest ha hb
    have hw : ∀ c ∈ cr.1.data, core.isSeparator c = false := by
      simp only [core.deviceRequests, List.mem_cons, List.mem_singleton, List.not_mem_nil,
        or_false] at hcr
      rcases hcr with h | h | h | h | h | h <;> (subst h; dsimp only; decide)
    obtain ⟨h1, h2⟩ := core.tokens_of_two_separators cr.1 hw a b ha hb rest
    have hne : cr.1 ≠ ".quit" := by
      simp only [core.deviceRequests, List.mem_cons, List.mem_singleton, List.not_mem_nil,
        or_false] at hcr
      rcases hcr with h | h | h | h | h | h <;> (subst h; simp)
    have hq : cr.1 ++ String.mk [a, b] ++ rest ≠ ".quit" :=
      core.ne_quit_of_commandToken (by rw [h1]; exact hne)
    obtain ⟨s', evs, he, ht, _, hr, _⟩ :=
      core.processRequest_events O self s v (cr.1 ++ String.mk [a, b] ++ rest) hq
    refine ⟨s', evs, he, ht, ?_⟩
    have hall : self.stringToDeviceParams "" = self.m_allDeviceParams := by
      simp [core.CCliServiceHelper.stringToDeviceParams]
    rw [hr, h1, h2, hall,
      core.documentedRequests_lookup self v _ cr (core.deviceRequests_sub v _ self cr hcr)]
    rfl
  have hex : ".state" ++ String.mk [' ', ' '] ++ "reco" = ".state  reco" := by decide
  have h4 := h3 (".state", core.Request.requestGetState v self.m_allDeviceParams)
    (by simp [core.deviceRequests]) ' ' ' ' "reco" (by decide) (by decide)
  simp only [hex] at h4
  refine ⟨?_, ?_, h3, h4, by decide, by decide, by decide⟩
  · intro _cmd
    refine ⟨?_, core.commandToken_eq _cmd, core.parameterToken_eq _cmd⟩
    simp [core.split, core.splitChars_length]
  · intro _cmd c hc hsep
    have htok : core.commandToken _cmd = "" := by
      rw [core.commandToken_eq]
      cases hd : _cmd.data with
      | nil => rfl
      | cons x xs =>
        rw [hd] at hc
        simp only [List.head?_cons, Option.some.injEq] at hc
        subst hc
        simp [List.takeWhile, hsep]
    have hq : _cmd ≠ ".quit" := by
      apply core.ne_quit_of_commandToken
      rw [htok]
      decide
    refine ⟨htok, ?_⟩
    rw [core.processRequest_eq O self s v _cmd hq, htok]
    simp [core.documentedRequests, List.lookup]

end odc

namespace odc

namespace core

/-! ### The loops of `run` -/

theorem callsOf_append (l₁ l₂ : List Event) : callsOf (l₁ ++ l₂) = callsOf l₁ ++ callsOf l₂ := by
  simp [callsOf, List.filterMap_append]

theorem commandMajor_cons (cmd : String) (cmds : List String) (ids : List partitionID_t) :
    commandMajor (cmd :: cmds) ids = ids.map (fun v => (v, cmd)) ++ commandMajor cmds ids := by
  simp [commandMajor]

theorem commandMajor_length (cmds : List String) (ids : List partitionID_t) :
    (commandMajor cmds ids).length = cmds.length * ids.length := by
  induction cmds with
  | nil => simp [commandMajor]
  | cons cmd cmds ih =>
    rw [commandMajor_cons, List.length_append, ih, List.length_map, List.length_cons]
    ring

theorem mem_commandMajor {cmds : List String} {ids : List partitionID_t}
    {x : partitionID_t × String} (h : x ∈ commandMajor cmds ids) : x.2 ∈ cmds ∧ x.1 ∈ ids := by
  induction cmds with
  | nil => simp [commandMajor] at h
  | cons cmd cmds ih =>
    rw [commandMajor_cons, List.mem_append] at h
    rcases h with h | h
    · obtain ⟨v, hv, rfl⟩ := List.mem_map.1 h
      exact ⟨List.mem_cons_self _ _, hv⟩
    · exact ⟨List.mem_cons_of_mem _ (ih h).1, (ih h).2⟩

/-- One command sent to the partition IDs: either every ID got its call and the program goes on,
or the command is ".quit" and the program exited in the call for the first ID. -/
theorem forPartitionIDs_calls {ω : Type} (O : OwnerT ω) (self : CCliServiceHelper) (cmd : String)
    (ids : List partitionID_t) :
    ∀ s : Process ω, ∃ (s' : Process ω) (evs : List Event),
      s'.trace = s.trace ++ evs ∧
      ((forPartitionIDs O self cmd ids s = Step.running s' ∧
          callsOf evs = ids.map (fun v => (v, cmd))) ∨
       (forPartitionIDs O self cmd ids s = Step.exited s' ∧
          callsOf evs <+: ids.map (fun v => (v, cmd)) ∧
          ∃ v, (callsOf evs).getLast? = some (v, ".quit"))) := by
  induction ids with
  | nil => intro s; exact ⟨s, [], by simp, Or.inl ⟨rfl, rfl⟩⟩
  | cons v vs ih =>
    intro s
    by_cases hq : cmd = ".quit"
    · subst hq
      refine ⟨s.emit (Event.call v ".quit"), [Event.call v ".quit"], rfl, Or.inr ⟨?_, ?_, v, rfl⟩⟩
      · simp [forPartitionIDs, processRequest_quit]
      · simp [callsOf]
    · obtain ⟨s₁, rest, he, ht, hc, _, _⟩ := processRequest_events O self s v cmd hq
      obtain ⟨s', evs, ht', h⟩ := ih s₁
      refine ⟨s', Event.call v cmd :: rest ++ evs, by rw [ht', ht]; simp, ?_⟩
      have hcalls : callsOf (Event.call v cmd :: rest ++ evs) = (v, cmd) :: callsOf evs := by
        rw [callsOf_append]
        have hcons : callsOf (Event.call v cmd :: rest) = (v, cmd) :: callsOf rest := by
          simp [callsOf]
        rw [hcons, hc]
        rfl
      have hstep : forPartitionIDs O self cmd (v :: vs) s = forPartitionIDs O self cmd vs s₁ := by
        simp [forPartitionIDs, he]
      rw [hstep, hcalls]
      rcases h with ⟨h1, h2⟩ | ⟨h1, h2, w, h3⟩
      · exact Or.inl ⟨h1, by simp [h2]⟩
      · refine Or.inr ⟨h1, ?_, w, ?_⟩
        · simpa using (List.prefix_cons_inj (v, cmd)).2 h2
        · cases hcs : callsOf evs with
          | nil => rw [hcs] at h3; cases h3
          | cons x xs => rw [hcs] at h3; simpa [List.getLast?_cons_cons] using h3

/-- The commands run one after the other: either every command was sent to every partition ID,
command by command, and the loop is over, or the program exited in a call for ".quit". -/
theorem forCommands_calls {ω : Type} (O : OwnerT ω) (self : CCliServiceHelper)
    (cmds : List String) :
    ∀ s : Process ω, ∃ (s' : Process ω) (evs : List Event),
      s'.trace = s.trace ++ evs ∧
      ((forCommands O self cmds s = Step.running s' ∧
          callsOf evs = commandMajor cmds self.m_partitionIDs) ∨
       (forCommands O self cmds s = Step.exited s' ∧
          callsOf evs <+: commandMajor cmds self.m_partitionIDs ∧
          ∃ v, (callsOf evs).getLast? = some (v, ".quit"))) := by
  induction cmds with
  | nil => intro s; exact ⟨s, [], by simp, Or.inl ⟨rfl, rfl⟩⟩
  | cons cmd cmds ih =>
    intro s
    obtain ⟨s₁, evs₁, ht₁, h⟩ := forPartitionIDs_calls O self cmd self.m_partitionIDs s
    rcases h with ⟨h1, h2⟩ | ⟨h1, h2, w, h3⟩
    · obtain ⟨s₂, evs₂, ht₂, h'⟩ := ih s₁
      have hstep : forCommands O self (cmd :: cmds) s = forCommands O self cmds s₁ := by
        simp [forCommands, h1]
      refine ⟨s₂, evs₁ ++ evs₂, by rw [ht₂, ht₁]; simp, ?_⟩
      rw [hstep, callsOf_append, commandMajor_cons, h2]
      rcases h' with ⟨g1, g2⟩ | ⟨g1, g2, w, g3⟩
      · exact Or.inl ⟨g1, by rw [g2]⟩
      · refine Or.inr ⟨g1, (List.prefix_append_right_inj _).2 g2, w, ?_⟩
        have hne : callsOf evs₂ ≠ [] := by
          intro hnil; rw [hnil] at g3; cases g3
        rw [List.getLast?_append_of_ne_nil _ hne]
        exact g3
    · refine ⟨s₁, evs₁, ht₁, Or.inr ⟨by simp [forCommands, h1], ?_, w, h3⟩⟩
      rw [commandMajor_cons]
      exact h2.trans (List.prefix_append _ _)

theorem forCommands_no_partition {ω : Type} (O : OwnerT ω) (self : CCliServiceHelper)
    (h : self.m_partitionIDs = []) (cmds : List String) (s : Process ω) :
    forCommands O self cmds s = Step.running s := by
  induction cmds with
  | nil => rfl
  | cons cmd cmds ih => simp [forCommands, h, forPartitionIDs, ih]

theorem untilQuit_append_of_no_quit (l₁ l₂ : List (partitionID_t × String))
    (h : ∀ c ∈ l₁, c.2 ≠ ".quit") : untilQuit (l₁ ++ l₂) = l₁ ++ untilQuit l₂ := by
  induction l₁ with
  | nil => rfl
  | cons c cs ih =>
    have hc : c.2 ≠ ".quit" := h c (List.mem_cons_self _ _)
    have := ih (fun x hx => h x (List.mem_cons_of_mem _ hx))
    simp [untilQuit, hc, this]

theorem untilQuit_of_no_quit (l : List (partitionID_t × String))
    (h : ∀ c ∈ l, c.2 ≠ ".quit") : untilQuit l = l := by
  have := untilQuit_append_of_no_quit l [] h
  simpa [untilQuit] using this

theorem untilQuit_prefix (l : List (partitionID_t × String)) : untilQuit l <+: l := by
  induction l with
  | nil => exact List.prefix_refl _
  | cons c cs ih =>
    by_cases hc : c.2 = ".quit"
    · simp [untilQuit, hc]
    · simpa [untilQuit, hc] using (List.prefix_cons_inj c).2 ih

theorem untilQuit_last (l : List (partitionID_t × String)) (h : untilQuit l ≠ l) :
    ∃ v, (untilQuit l).getLast? = some (v, ".quit") := by
  induction l with
  | nil => exact absurd rfl h
  | cons c cs ih =>
    by_cases hc : c.2 = ".quit"
    · refine ⟨c.1, ?_⟩
      simp only [untilQuit, hc, if_true, List.getLast?_singleton]
      rw [← hc]
    · have hne : untilQuit cs ≠ cs := by
        intro he
        apply h
        simp [untilQuit, hc, he]
      obtain ⟨v, hv⟩ := ih hne
      refine ⟨v, ?_⟩
      simp only [untilQuit, hc, if_false]
      cases hu : untilQuit cs with
      | nil => rw [hu] at hv; cases hv
      | cons x xs => rw [hu] at hv; simpa [List.getLast?_cons_cons] using hv

theorem commandMajor_no_partition (cmds : List String) : commandMajor cmds [] = [] := by
  induction cmds with
  | nil => rfl
  | cons cmd cmds ih => rw [commandMajor_cons, ih]; rfl

/-- A command other than ".quit" is sent to every partition ID and the program goes on. -/
theorem forPartitionIDs_running {ω : Type} (O : OwnerT ω) (self : CCliServiceHelper)
    (cmd : String) (hq : cmd ≠ ".quit") (ids : List partitionID_t) (s : Process ω) :
    ∃ (s' : Process ω) (evs : List Event),
      forPartitionIDs O self cmd ids s = Step.running s' ∧
      s'.trace = s.trace ++ evs ∧
      callsOf evs = ids.map (fun v => (v, cmd)) := by
  obtain ⟨s', evs, ht, h⟩ := forPartitionIDs_calls O self cmd ids s
  rcases h with ⟨h1, h2⟩ | ⟨_, h2, w, h3⟩
  · exact ⟨s', evs, h1, ht, h2⟩
  · exfalso
    have hmem : (w, ".quit") ∈ ids.map (fun v => (v, cmd)) :=
      h2.subset (List.mem_of_getLast?_eq_some h3)
    obtain ⟨x, _, hx⟩ := List.mem_map.1 hmem
    simp only [Prod.mk.injEq] at hx
    exact hq hx.2

/-- The command ".quit" ends the program in the call for the first partition ID. -/
theorem forPartitionIDs_quit {ω : Type} (O : OwnerT ω) (self : CCliServiceHelper)
    (v : partitionID_t) (vs : List partitionID_t) (s : Process ω) :
    forPartitionIDs O self ".quit" (v :: vs) s = Step.exited (s.emit (Event.call v ".quit")) := by
  simp [forPartitionIDs, processRequest_quit]

/-- The commands run one after the other: the calls made are the command-major list cut after
its first call for ".quit", and when there is such a call it is the last thing the program did. -/
theorem forCommands_untilQuit {ω : Type} (O : OwnerT ω) (self : CCliServiceHelper)
    (cmds : List String) :
    ∀ s : Process ω, ∃ evs : List Event,
      (forCommands O self cmds s).state.trace = s.trace ++ evs ∧
      callsOf evs = untilQuit (commandMajor cmds self.m_partitionIDs) ∧
      (".quit" ∈ cmds → ∀ v vs, self.m_partitionIDs = v :: vs →
        evs.getLast? = some (Event.call v ".quit")) := by
  induction cmds with
  | nil =>
    intro s
    exact ⟨[], by simp [forCommands, Step.state], rfl, fun h => absurd h (List.not_mem_nil _)⟩
  | cons cmd cmds ih =>
    intro s
    by_cases hq : cmd = ".quit"
    · subst hq
      cases hids : self.m_partitionIDs with
      | nil =>
        refine ⟨[], ?_, ?_, fun _ v vs hv => by cases hv⟩
        · rw [forCommands_no_partition O self hids]
          simp [Step.state]
        · rw [commandMajor_no_partition]
          rfl
      | cons v vs =>
        refine ⟨[Event.call v ".quit"], ?_, ?_, ?_⟩
        · simp [forCommands, hids, forPartitionIDs_quit, Step.state, Process.emit]
        · rw [commandMajor_cons]
          simp [callsOf, untilQuit]
        · intro _ v' vs' hv
          simp only [List.cons.injEq] at hv
          rw [hv.1]
          rfl
    · obtain ⟨s₁, evs₁, h1, ht₁, hc₁⟩ :=
        forPartitionIDs_running O self cmd hq self.m_partitionIDs s
      obtain ⟨evs₂, ht₂, hc₂, hl₂⟩ := ih s₁
      have hstep : forCommands O self (cmd :: cmds) s = forCommands O self cmds s₁ := by
        simp [forCommands, h1]
      refine ⟨evs₁ ++ evs₂, by rw [hstep, ht₂, ht₁]; simp, ?_, ?_⟩
      · rw [callsOf_append, hc₁, hc₂, commandMajor_cons, untilQuit_append_of_no_quit]
        intro c hc
        obtain ⟨x, _, hx⟩ := List.mem_map.1 hc
        rw [← hx]
        exact hq
      · intro hmem v vs hv
        have hmem' : ".quit" ∈ cmds := by
          rcases List.mem_cons.1 hmem with h | h
          · exact absurd h.symm hq
          · exact h
        have h2 := hl₂ hmem' v vs hv
        have hne : evs₂ ≠ [] := by
          intro hnil; rw [hnil] at h2; cases h2
        rw [List.getLast?_append_of_ne_nil _ hne]
        exact h2

end core

end odc

namespace odc

/-- C17, as stated, fails: with the commands ".init", ".quit", ".down" and the partition IDs "a"
and "b", `processRequest` is called three times, not 3 x 2 times: the program exits in the call
of ".quit" for "a", and ".quit" for "b" and ".down" are never sent. -/
theorem run_stops_at_quit :
    core.callsOf (core.run sampleOwner sampleHelper sampleStart [".init", ".quit", ".down"]
      []).state.trace = [("a", ".init"), ("b", ".init"), ("a", ".quit")] ∧
    sampleHelper.m_partitionIDs = ["a", "b"] ∧
    (core.callsOf (core.run sampleOwner sampleHelper sampleStart [".init", ".quit", ".down"]
      []).state.trace).length ≠
        [".init", ".quit", ".down"].length * sampleHelper.m_partitionIDs.length ∧
    core.callsOf (core.run sampleOwner sampleHelper sampleStart [".init", ".quit", ".down"]
      []).state.trace ≠
        core.commandMajor [".init", ".quit", ".down"] sampleHelper.m_partitionIDs := by
  decide

/-- C17, amended: for every non-empty command list, `run` ends with the program exited, having
called `processRequest` for the command-major list (every command, in list order, sent to every
partition ID, in list order, before the next command) cut after its first call for ".quit": that
call ends the program, it is the last thing the program did, and nothing of the list after it is
sent. So when no command is ".quit" or there is no partition ID the calls are the whole list,
(number of commands) x (number of partition IDs) of them; and with an empty partition ID list
nothing happens at all. -/
theorem run_calls_command_major {ω : Type} (O : core.OwnerT ω) (self : core.CCliServiceHelper)
    (s : core.Process ω) (_cmds : List String) (input : List String) (h : _cmds ≠ []) :
    ∃ (s' : core.Process ω) (evs : List core.Event),
      core.run O self s _cmds input = core.Step.exited s' ∧
      s'.trace = s.trace ++ evs ∧
      core.callsOf evs = core.untilQuit (core.commandMajor _cmds self.m_partitionIDs) ∧
      (".quit" ∈ _cmds → ∀ v vs, self.m_partitionIDs = v :: vs →
        evs.getLast? = some (core.Event.call v ".quit") ∧
        (core.callsOf evs).getLast? = some (v, ".quit") ∧
        (core.callsOf evs).count (v, ".quit") = 1 ∧
        ∀ w, w ≠ v → (w, ".quit") ∉ core.callsOf evs) ∧
      core.callsOf evs <+: core.commandMajor _cmds self.m_partitionIDs ∧
      ((".quit" ∉ _cmds ∨ self.m_partitionIDs = []) →
        core.callsOf evs = core.commandMajor _cmds self.m_partitionIDs ∧
        (core.callsOf evs).length = _cmds.length * self.m_partitionIDs.length) ∧
      (core.callsOf evs ≠ core.commandMajor _cmds self.m_partitionIDs →
        ∃ v, (core.callsOf evs).getLast? = some (v, ".quit")) ∧
      (self.m_partitionIDs = [] → evs = []) := by
  have hrun : core.run O self s _cmds input =
      core.Step.exited (core.forCommands O self _cmds s).state := by
    cases _cmds with
    | nil => exact absurd rfl h
    | cons c cs =>
      simp only [core.run, List.isEmpty_cons, Bool.false_eq_true, if_false]
      cases core.forCommands O self (c :: cs) s <;> rfl
  obtain ⟨evs, ht, hcalls, hlast⟩ := core.forCommands_untilQuit O self _cmds s
  have hpre : core.callsOf evs <+: core.commandMajor _cmds self.m_partitionIDs := by
    rw [hcalls]
    exact core.untilQuit_prefix _
  have hwhole : (".quit" ∉ _cmds ∨ self.m_partitionIDs = []) →
      core.callsOf evs = core.commandMajor _cmds self.m_partitionIDs := by
    intro hno
    rw [hcalls]
    apply core.untilQuit_of_no_quit
    intro c hc hq
    have := core.mem_commandMajor hc
    rcases hno with hno | hno
    · exact hno (hq ▸ this.1)
    · rw [hno] at this
      exact absurd this.2 (List.not_mem_nil _)
  refine ⟨_, evs, hrun, ht, hcalls, ?_, hpre, ?_, ?_, ?_⟩
  · intro hq v vs hv
    have hl := hlast hq v vs hv
    have hmemq : (v, ".quit") ∈ core.commandMajor _cmds self.m_partitionIDs := by
      rw [hv]
      clear hl hlast hwhole hpre hcalls ht hrun h
      induction _cmds with
      | nil => cases hq
      | cons c cs ih =>
        rw [core.commandMajor_cons]
        rcases List.mem_cons.1 hq with h | h
        · subst h
          simp
        · exact List.mem_append_right _ (ih h)
    have key : ∀ l : List (partitionID_t × String), (v, ".quit") ∈ l →
        ∃ w, (core.untilQuit l).getLast? = some (w, ".quit") ∧
          (core.untilQuit l).count (w, ".quit") = 1 ∧
          ∀ u, u ≠ w → (u, ".quit") ∉ core.untilQuit l := by
      intro l
      induction l with
      | nil => intro hm; cases hm
      | cons c cs ih =>
        intro hm
        by_cases hc : c.2 = ".quit"
        · refine ⟨c.1, ?_, ?_, ?_⟩
          · simp only [core.untilQuit, hc, if_true, List.getLast?_singleton]
            rw [← hc]
          · simp only [core.untilQuit, hc, if_true]
            rw [← hc]
            simp
          · intro u hu hmem
            simp only [core.untilQuit, hc, if_true, List.mem_singleton] at hmem
            apply hu
            rw [← hmem]
        · have hm' : (v, ".quit") ∈ cs := by
            rcases List.mem_cons.1 hm with h | h
            · exact absurd (by rw [← h]) hc
            · exact h
          obtain ⟨w, h1, h2, h3⟩ := ih hm'
          refine ⟨w, ?_, ?_, ?_⟩
          · simp only [core.untilQuit, hc, if_false]
            cases hu : core.untilQuit cs with
            | nil => rw [hu] at h1; cases h1
            | cons x xs => rw [hu] at h1; simpa [List.getLast?_cons_cons] using h1
          · simp only [core.untilQuit, hc, if_false]
            have hcw : c ≠ (w, ".quit") := by
              intro he; apply hc; rw [he]
            rw [List.count_cons_of_ne hcw.symm]
            exact h2
          · intro u hu hmem
            simp only [core.untilQuit, hc, if_false, List.mem_cons] at hmem
            rcases hmem with he | hmem
            · apply hc; rw [← he]
            · exact h3 u hu hmem
    obtain ⟨w, h1, h2, h3⟩ := key _ hmemq
    have hlc : (core.callsOf evs).getLast? = some (v, ".quit") := by
      have hne : evs ≠ [] := by
        intro hnil; rw [hnil] at hl; cases hl
      obtain ⟨init, hinit⟩ : ∃ init, evs = init ++ [core.Event.call v ".quit"] := by
        refine ⟨evs.dropLast, ?_⟩
        have := List.dropLast_append_getLast? (core.Event.call v ".quit") (by simpa using hl)
        exact this.symm
      rw [hinit, core.callsOf_append]
      simp [core.callsOf]
    rw [← hcalls] at h1 h2 h3
    have hw : w = v := by
      rw [hlc] at h1
      simp only [Option.some.injEq, Prod.mk.injEq] at h1
      exact h1.1.symm
    subst hw
    exact ⟨hl, hlc, h2, h3⟩
  · intro hno
    exact ⟨hwhole hno, by rw [hwhole hno, core.commandMajor_length]⟩
  · intro hne
    rw [hcalls] at hne ⊢
    exact core.untilQuit_last _ hne
  · intro hids
    have hf := core.forCommands_no_partition O self hids _cmds s
    rw [hf] at ht
    have : s.trace = s.trace ++ evs := ht
    simpa using this

theorem run_calls_command_major_witness :
    ∃ (s' : core.Process Unit) (evs : List core.Event),
      core.run sampleOwner sampleHelper sampleStart [".init", ".quit", ".down"] [] =
        core.Step.exited s' ∧
      s'.trace = sampleStart.trace ++ evs ∧
      core.callsOf evs =
        core.untilQuit (core.commandMajor [".init", ".quit", ".down"]
          sampleHelper.m_partitionIDs) ∧
      (".quit" ∈ [".init", ".quit", ".down"] → ∀ v vs, sampleHelper.m_partitionIDs = v :: vs →
        evs.getLast? = some (core.Event.call v ".quit") ∧
        (core.callsOf evs).getLast? = some (v, ".quit") ∧
        (core.callsOf evs).count (v, ".quit") = 1 ∧
        ∀ w, w ≠ v → (w, ".quit") ∉ core.callsOf evs) ∧
      core.callsOf evs <+:
        core.commandMajor [".init", ".quit", ".down"] sampleHelper.m_partitionIDs ∧
      ((".quit" ∉ [".init", ".quit", ".down"] ∨ sampleHelper.m_partitionIDs = []) →
        core.callsOf evs =
          core.commandMajor [".init", ".quit", ".down"] sampleHelper.m_partitionIDs ∧
        (core.callsOf evs).length =
          [".init", ".quit", ".down"].length * sampleHelper.m_partitionIDs.length) ∧
      (core.callsOf evs ≠
          core.commandMajor [".init", ".quit", ".down"] sampleHelper.m_partitionIDs →
        ∃ v, (core.callsOf evs).getLast? = some (v, ".quit")) ∧
      (sampleHelper.m_partitionIDs = [] → evs = []) :=
  run_calls_command_major sampleOwner sampleHelper sampleStart [".init", ".quit", ".down"] []
    (by decide)

/-! ## Properties of the device state aggregator -/

theorem all_state_eq_map {T : TopologyDecls} [DecidableEq T.State]
    (ds : List (SDeviceStatus T)) (st : T.State) :
    (ds.all fun x => decide (x.m_status.state = st)) =
      (ds.map (fun d => d.m_status.state)).all (fun s => decide (s = st)) := by
  induction ds with
  | nil => rfl
  | cons d ds ih => simp only [List.all_cons, List.map_cons, ih]

theorem aggregateState_uniform {T : TopologyDecls} [DecidableEq T.State]
    (ds : List (SDeviceStatus T)) (st : T.State) (hne : ds ≠ [])
    (h : ∀ x ∈ ds, x.m_status.state = st) : aggregateState ds = AggregatedState.Uniform st := by
  cases ds with
  | nil => exact absurd rfl hne
  | cons d ds =>
    have hd : d.m_status.state = st := h d (List.mem_cons_self _ _)
    have hall : (ds.all fun x => decide (x.m_status.state = d.m_status.state)) = true := by
      rw [List.all_eq_true]
      intro x hx
      simp [h x (List.mem_cons_of_mem _ hx), hd]
    rw [hd] at hall
    simp only [aggregateState, hd, hall, if_true]

theorem aggregateState_mixed {T : TopologyDecls} [DecidableEq T.State]
    (ds : List (SDeviceStatus T)) (a b : SDeviceStatus T) (ha : a ∈ ds) (hb : b ∈ ds)
    (hab : a.m_status.state ≠ b.m_status.state) : aggregateState ds = AggregatedState.Mixed := by
  cases ds with
  | nil => cases ha
  | cons d ds =>
    have hall : ¬ (ds.all fun x => decide (x.m_status.state = d.m_status.state)) = true := by
      intro hall
      rw [List.all_eq_true] at hall
      have key : ∀ x ∈ d :: ds, x.m_status.state = d.m_status.state := by
        intro x hx
        rcases List.mem_cons.1 hx with rfl | hx
        · rfl
        · simpa using hall x hx
      exact hab ((key a ha).trans (key b hb).symm)
    simp [aggregateState, hall]

/-- The three cases of the aggregator: no device, all devices in one state, two devices in
different states. -/
theorem aggregateState_cases {T : TopologyDecls} [DecidableEq T.State]
    (ds : List (SDeviceStatus T)) :
    (ds = [] ∧ aggregateState ds = AggregatedState.Undefined) ∨
    (∃ st, ds ≠ [] ∧ (∀ x ∈ ds, x.m_status.state = st) ∧
      aggregateState ds = AggregatedState.Uniform st) ∨
    (∃ a ∈ ds, ∃ b ∈ ds, a.m_status.state ≠ b.m_status.state ∧
      aggregateState ds = AggregatedState.Mixed) := by
  cases ds with
  | nil => exact Or.inl ⟨rfl, rfl⟩
  | cons d ds =>
    by_cases hall : ∀ x ∈ ds, x.m_status.state = d.m_status.state
    · refine Or.inr (Or.inl ⟨d.m_status.state, by simp, ?_, ?_⟩)
      · intro x hx
        rcases List.mem_cons.1 hx with rfl | hx
        · rfl
        · exact hall x hx
      · apply aggregateState_uniform _ _ (by simp)
        intro x hx
        rcases List.mem_cons.1 hx with rfl | hx
        · rfl
        · exact hall x hx
    · push_neg at hall
      obtain ⟨x, hx, hne⟩ := hall
      exact Or.inr (Or.inr ⟨x, List.mem_cons_of_mem _ hx, d, List.mem_cons_self _ _, hne,
        aggregateState_mixed _ x d (List.mem_cons_of_mem _ hx) (List.mem_cons_self _ _) hne⟩)

/-- C14: the aggregator is a function of the device states alone that gives Undefined for no
device (and only then), the common state when all devices report the same state, and Mixed as soon
as two devices report different states, wherever they stand in the collection: two devices in one
state and a third in another give Mixed, not the state of the majority or of the first device; and
the result does not change when the collection is reordered. -/
theorem aggregateState_policy {T : TopologyDecls} [DecidableEq T.State] :
    aggregateState ([] : List (SDeviceStatus T)) = AggregatedState.Undefined ∧
    (∀ ds : List (SDeviceStatus T), aggregateState ds = AggregatedState.Undefined ↔ ds = []) ∧
    (∀ (d : SDeviceStatus T) (ds : List (SDeviceStatus T)),
      (∀ x ∈ ds, x.m_status.state = d.m_status.state) →
        aggregateState (d :: ds) = AggregatedState.Uniform d.m_status.state) ∧
    (∀ (ds : List (SDeviceStatus T)) (a b : SDeviceStatus T), a ∈ ds → b ∈ ds →
      a.m_status.state ≠ b.m_status.state → aggregateState ds = AggregatedState.Mixed) ∧
    (∀ (running error : T.State) (t₁ t₂ t₃ : Nat) (p₁ p₂ p₃ : String), running ≠ error →
      aggregateState [⟨⟨t₁, running⟩, p₁⟩, ⟨⟨t₂, running⟩, p₂⟩, ⟨⟨t₃, error⟩, p₃⟩] =
        AggregatedState.Mixed) ∧
    (∀ ds ds' : List (SDeviceStatus T), ds.Perm ds' → aggregateState ds = aggregateState ds') ∧
    (∀ ds ds' : List (SDeviceStatus T),
      ds.map (fun d => d.m_status.state) = ds'.map (fun d => d.m_status.state) →
        aggregateState ds = aggregateState ds') := by
  refine ⟨rfl, ?_, ?_, ?_, ?_, ?_, ?_⟩
  · intro ds
    constructor
    · intro h
      rcases aggregateState_cases ds with ⟨h1, _⟩ | ⟨st, _, _, h2⟩ | ⟨a, _, b, _, _, h2⟩
      · exact h1
      · rw [h2] at h; cases h
      · rw [h2] at h; cases h
    · rintro rfl; rfl
  · intro d ds h
    apply aggregateState_uniform _ _ (by simp)
    intro x hx
    rcases List.mem_cons.1 hx with rfl | hx
    · rfl
    · exact h x hx
  · intro ds a b ha hb hab
    exact aggregateState_mixed ds a b ha hb hab
  · intro running error t₁ t₂ t₃ p₁ p₂ p₃ hne
    exact aggregateState_mixed _ ⟨⟨t₁, running⟩, p₁⟩ ⟨⟨t₃, error⟩, p₃⟩ (by simp) (by simp) hne
  · intro ds ds' hp
    rcases aggregateState_cases ds with ⟨h1, h2⟩ | ⟨st, h1, h2, h3⟩ | ⟨a, ha, b, hb, hab, h3⟩
    · subst h1
      rw [List.nil_perm.1 hp]
    · rw [h3]
      symm
      apply aggregateState_uniform
      · intro hnil
        subst hnil
        exact h1 (List.perm_nil.1 hp)
      · intro x hx
        exact h2 x (hp.mem_iff.2 hx)
    · rw [h3]
      symm
      exact aggregateState_mixed ds' a b (hp.mem_iff.1 ha) (hp.mem_iff.1 hb) hab
  · intro ds ds' hmap
    cases ds with
    | nil =>
      cases ds' with
      | nil => rfl
      | cons d' ds' => simp at hmap
    | cons d ds =>
      cases ds' with
      | nil => simp at hmap
      | cons d' ds' =>
        simp only [List.map_cons, List.cons.injEq] at hmap
        obtain ⟨hd, hrest⟩ := hmap
        have hall : (ds.all fun x => decide (x.m_status.state = d'.m_status.state)) =
            (ds'.all fun x => decide (x.m_status.state = d'.m_status.state)) := by
          rw [all_state_eq_map ds, all_state_eq_map ds', hrest]
        simp only [aggregateState, hd, hall]

end odc
